import Mathlib

/-!
Shallow embedding of the grpc-gateway runtime context-annotation code
(runtime/context.go): HTTP header to gRPC metadata translation, timeout
decoding, binary-header base64 decoding, forwarded-chain construction and
server-metadata context attachment, together with proofs of the claims
stated about that code.

Strings are modelled at the character-list level (header values in this
code are ASCII, where Go byte-level and char-level processing coincide);
machine integers (Go int64 durations) are modelled as Int with an explicit
wrap modulo 2^64.
-/

namespace Runtime

/-! ### ASCII case helpers (model of the ASCII range of strings.ToLower and
the case flips inside textproto.CanonicalMIMEHeaderKey) -/

/-- Lowercase a single ASCII character (identity elsewhere). -/
def lowerChar (c : Char) : Char :=
  if 65 ≤ c.toNat ∧ c.toNat ≤ 90 then Char.ofNat (c.toNat + 32) else c

/-- Uppercase a single ASCII character (identity elsewhere). -/
def upperChar (c : Char) : Char :=
  if 97 ≤ c.toNat ∧ c.toNat ≤ 122 then Char.ofNat (c.toNat - 32) else c

/-- Model of strings.ToLower on the ASCII range, as applied by
metadata.Pairs to metadata keys. -/
def lowerString (s : String) : String :=
  String.mk (s.data.map lowerChar)

/-- Model of net/textproto validHeaderFieldByte: the token table admits
ASCII letters, digits and the bytes of the characters
exclamation, hash, dollar, percent, ampersand, quote, star, plus, minus,
dot, caret, underscore, backquote, pipe, tilde. -/
def validHeaderFieldChar (c : Char) : Bool :=
  let n := c.toNat
  (decide (48 ≤ n) && decide (n ≤ 57)) ||
  (decide (65 ≤ n) && decide (n ≤ 90)) ||
  (decide (97 ≤ n) && decide (n ≤ 122)) ||
  (n == 33) || (n == 35) || (n == 36) || (n == 37) || (n == 38) ||
  (n == 39) || (n == 42) || (n == 43) || (n == 45) || (n == 46) ||
  (n == 94) || (n == 95) || (n == 96) || (n == 124) || (n == 126)

/-- The canonicalization loop of textproto.CanonicalMIMEHeaderKey: a
character is uppercased when it starts the string or follows a hyphen,
lowercased otherwise. -/
def canonChars : Bool → List Char → List Char
  | _, [] => []
  | upper, c :: rest =>
    let c2 := if upper then upperChar c else lowerChar c
    c2 :: canonChars (c2 == '-') rest

/-- Model of textproto.CanonicalMIMEHeaderKey: if every character is a
valid header-field token character the name is canonicalized
(first letter of each hyphen-separated word uppercased, the rest
lowercased); otherwise the name is returned unchanged. -/
def canonicalMIMEHeaderKey (s : String) : String :=
  if s.data.all validHeaderFieldChar then String.mk (canonChars true s.data) else s

/-! ### Timeout decoding (timeoutDecode / timeoutUnitToDuration and the
strconv.ParseInt it relies on) -/

/-- Numeric value of an ASCII digit character. -/
def digitVal (c : Char) : Nat := c.toNat - 48

/-- Whether a character is an ASCII digit. -/
def isDigitChar (c : Char) : Bool :=
  decide (48 ≤ c.toNat) && decide (c.toNat ≤ 57)

/-- Model of strconv.ParseInt(s, 10, 64): an optional sign followed by a
nonempty run of decimal digits, with the int64 range check (magnitude at
most 2^63 - 1 for nonnegative results, 2^63 for negative ones). -/
def parseInt64 (cs : List Char) : Option Int :=
  match cs with
  | [] => none
  | c :: rest =>
    let digits := if c == '-' || c == '+' then rest else cs
    if digits.isEmpty then none
    else if digits.all isDigitChar then
      let n : Nat := digits.foldl (fun a d => a * 10 + digitVal d) 0
      if c == '-' then
        if n ≤ 9223372036854775808 then some (-(n : Int)) else none
      else if n ≤ 9223372036854775807 then some ((n : Int)) else none
    else none

/-- Wrap an integer into the int64 range, the semantics of Go int64
multiplication overflow. -/
def i64 (x : Int) : Int :=
  (x + 9223372036854775808) % 18446744073709551616 - 9223372036854775808

/-- Model of timeoutUnitToDuration: the unit character selects a
time.Duration (in nanoseconds). -/
def timeoutUnitToDuration (c : Char) : Option Int :=
  if c = 'H' then some 3600000000000
  else if c = 'M' then some 60000000000
  else if c = 'S' then some 1000000000
  else if c = 'm' then some 1000000
  else if c = 'u' then some 1000
  else if c = 'n' then some 1
  else none

/-- Model of timeoutDecode: reject strings shorter than two characters,
resolve the unit from the last character, parse the remaining decimal
prefix as an int64, and multiply (with int64 wrap-around, as in Go). -/
def timeoutDecode (s : String) : Except String Int :=
  let cs := s.data
  if cs.length < 2 then .error ("timeout string is too short: " ++ s)
  else
    match timeoutUnitToDuration (cs.getLastD ' ') with
    | none => .error ("timeout unit is not recognized: " ++ s)
    | some d =>
      match parseInt64 cs.dropLast with
      | none => .error ("timeout value could not be parsed: " ++ s)
      | some t => .ok (i64 (d * t))

/-! ### Base64 (model of encoding/base64 StdEncoding and RawStdEncoding,
at the byte level: byte sequences and character sequences are lists of
Nat below 256) -/

/-- The standard base64 alphabet: sextet value to character code. -/
def sextetToChar (n : Nat) : Nat :=
  if n < 26 then 65 + n
  else if n < 52 then 97 + (n - 26)
  else if n < 62 then 48 + (n - 52)
  else if n = 62 then 43
  else 47

/-- Inverse of the standard base64 alphabet: character code to sextet
value, none for characters outside the alphabet (including the padding
character, code 61). -/
def charToSextet (c : Nat) : Option Nat :=
  if 65 ≤ c ∧ c ≤ 90 then some (c - 65)
  else if 97 ≤ c ∧ c ≤ 122 then some (26 + (c - 97))
  else if 48 ≤ c ∧ c ≤ 57 then some (52 + (c - 48))
  else if c = 43 then some 62
  else if c = 47 then some 63
  else none

/-- Model of base64.RawStdEncoding.EncodeToString: three bytes become four
characters, a trailing byte becomes two characters and a trailing pair of
bytes three, with no padding. -/
def encodeRawB64 : List Nat → List Nat
  | [] => []
  | [b0] => [sextetToChar (b0 / 4), sextetToChar (b0 % 4 * 16)]
  | [b0, b1] =>
    [sextetToChar (b0 / 4), sextetToChar (b0 % 4 * 16 + b1 / 16),
     sextetToChar (b1 % 16 * 4)]
  | b0 :: b1 :: b2 :: rest =>
    sextetToChar (b0 / 4) :: sextetToChar (b0 % 4 * 16 + b1 / 16) ::
    sextetToChar (b1 % 16 * 4 + b2 / 64) :: sextetToChar (b2 % 64) ::
    encodeRawB64 rest

/-- Model of base64.StdEncoding.EncodeToString: the raw encoding padded
with the padding character (code 61) to a multiple of four characters. -/
def encodeStdB64 (bs : List Nat) : List Nat :=
  encodeRawB64 bs ++
    (if bs.length % 3 = 1 then [61, 61]
     else if bs.length % 3 = 2 then [61] else [])

/-- Model of base64.RawStdEncoding.DecodeString: quanta of four characters
become three bytes; two or three trailing characters become one or two
bytes; a single trailing character is corrupt input. -/
def decodeRawB64 : List Nat → Option (List Nat)
  | [] => some []
  | [_] => none
  | [c0, c1] =>
    match charToSextet c0, charToSextet c1 with
    | some v0, some v1 => some [v0 * 4 + v1 / 16]
    | _, _ => none
  | [c0, c1, c2] =>
    match charToSextet c0, charToSextet c1, charToSextet c2 with
    | some v0, some v1, some v2 =>
      some [v0 * 4 + v1 / 16, v1 % 16 * 16 + v2 / 4]
    | _, _, _ => none
  | c0 :: c1 :: c2 :: c3 :: rest =>
    match charToSextet c0, charToSextet c1, charToSextet c2,
        charToSextet c3, decodeRawB64 rest with
    | some v0, some v1, some v2, some v3, some tl =>
      some ((v0 * 4 + v1 / 16) :: (v1 % 16 * 16 + v2 / 4) :: (v2 % 4 * 64 + v3) :: tl)
    | _, _, _, _, _ => none

/-- Model of base64.StdEncoding.DecodeString: quanta of four characters,
where the final quantum may end in one or two padding characters; any
input that is not a whole number of quanta, or has padding anywhere else,
is corrupt. -/
def decodeStdB64 : List Nat → Option (List Nat)
  | [] => some []
  | c0 :: c1 :: c2 :: c3 :: rest =>
    if rest.isEmpty then
      if c2 = 61 ∧ c3 = 61 then
        match charToSextet c0, charToSextet c1 with
        | some v0, some v1 => some [v0 * 4 + v1 / 16]
        | _, _ => none
      else if c3 = 61 then
        match charToSextet c0, charToSextet c1, charToSextet c2 with
        | some v0, some v1, some v2 =>
          some [v0 * 4 + v1 / 16, v1 % 16 * 16 + v2 / 4]
        | _, _, _ => none
      else
        match charToSextet c0, charToSextet c1, charToSextet c2, charToSextet c3 with
        | some v0, some v1, some v2, some v3 =>
          some [v0 * 4 + v1 / 16, v1 % 16 * 16 + v2 / 4, v2 % 4 * 64 + v3]
        | _, _, _, _ => none
    else
      match charToSextet c0, charToSextet c1, charToSextet c2,
          charToSextet c3, decodeStdB64 rest with
      | some v0, some v1, some v2, some v3, some tl =>
        some ((v0 * 4 + v1 / 16) :: (v1 % 16 * 16 + v2 / 4) :: (v2 % 4 * 64 + v3) :: tl)
      | _, _, _, _, _ => none
  | _ => none

/-- Model of decodeBinHeader: inputs whose length is a multiple of four are
decoded with the padded standard decoder, all others with the raw
(unpadded) standard decoder. -/
def decodeBinHeader (cs : List Nat) : Option (List Nat) :=
  if cs.length % 4 = 0 then decodeStdB64 cs else decodeRawB64 cs

/-- decodeBinHeader lifted to the string-valued header collection: the
value's characters are taken as bytes and the decoded bytes are stored
back as a string value verbatim, as Go string conversion does. -/
def decodeBinHeaderStr (v : String) : Option String :=
  (decodeBinHeader (v.data.map Char.toNat)).map
    (fun bs => String.mk (bs.map Char.ofNat))

/-! ### Metadata bags (model of google.golang.org/grpc metadata.MD: a map
from lowercase key to ordered value list, rendered as an association list
whose keys are distinct) -/

/-- A metadata bag: association list from key to ordered value list. -/
abbrev MD := List (String × List String)

/-- Append one value under a key, creating the key if absent (the
`md[key] = append(md[key], value)` step of metadata.Pairs). -/
def mdAdd (md : MD) (k v : String) : MD :=
  match md with
  | [] => [(k, [v])]
  | e :: rest => if e.1 = k then (e.1, e.2 ++ [v]) :: rest else e :: mdAdd rest k v

/-- Model of metadata.Pairs over an already-paired list: every key is
lowercased and its value appended in order. -/
def mdPairs (ps : List (String × String)) : MD :=
  ps.foldl (fun m p => mdAdd m (lowerString p.1) p.2) []

/-- Append a whole value list under a key, creating the key if absent
(the per-key step of metadata.Join). -/
def mdAppendVals (md : MD) (k : String) (vs : List String) : MD :=
  match md with
  | [] => [(k, vs)]
  | e :: rest => if e.1 = k then (e.1, e.2 ++ vs) :: rest else e :: mdAppendVals rest k vs

/-- Model of metadata.Join on two bags: every entry of the second bag is
appended, per key, after the entries of the first. -/
def mdJoin (a b : MD) : MD :=
  b.foldl (fun m e => mdAppendVals m e.1 e.2) a

/-- The ordered value list stored under a key (empty when absent). -/
def mdLookup (md : MD) (k : String) : List String :=
  match md.find? (fun e => e.1 = k) with
  | some e => e.2
  | none => []

/-- A bag is well formed when its keys are distinct, which is automatic
for Go maps. -/
def mdWF (md : MD) : Prop := (md.map Prod.fst).Nodup

/-! ### HTTP header collection (model of net/http Header: a map from
canonical key to ordered value list) -/

/-- An HTTP header collection, as an association list. -/
abbrev Header := List (String × List String)

/-- Model of http.Header.Add: the name is canonicalized and the value
appended to that key's list. -/
def headerAdd (h : Header) (key val : String) : Header :=
  let ck := canonicalMIMEHeaderKey key
  match h with
  | [] => [(ck, [val])]
  | e :: rest =>
    if e.1 = ck then (e.1, e.2 ++ [val]) :: rest
    else e :: headerAdd rest key val

/-- Model of http.Header.Get (via textproto.MIMEHeader.Get): canonicalize
the name, return the first stored value, or the empty string when the key
is absent or has no values. -/
def headerGet (h : Header) (key : String) : String :=
  match h.find? (fun e => e.1 = canonicalMIMEHeaderKey key) with
  | some (_, v :: _) => v
  | _ => ""

/-! ### Remote address splitting (model of net.SplitHostPort) -/

/-- Index of the last occurrence of a character. -/
def lastIdx (cs : List Char) (c : Char) : Option Nat :=
  match cs.reverse.findIdx? (fun x => x = c) with
  | some r => some (cs.length - 1 - r)
  | none => none

/-- Model of net.SplitHostPort: the split is at the last colon; a
bracketed IPv6 literal keeps colons inside the brackets; misplaced
brackets, a colon inside an unbracketed host, or a missing port are
errors (none). -/
def splitHostPort (s : String) : Option (String × String) :=
  let cs := s.data
  match lastIdx cs ':' with
  | none => none
  | some i =>
    if cs.head? = some '[' then
      match cs.findIdx? (fun x => x = ']') with
      | none => none
      | some e =>
        if e + 1 = cs.length then none
        else if e + 1 = i then
          let rest1 := cs.drop 1
          let rest2 := cs.drop (e + 1)
          if rest1.contains '[' then none
          else if rest2.contains ']' then none
          else some (String.mk ((cs.drop 1).take (e - 1)), String.mk (cs.drop (i + 1)))
        else none
    else
      let host := cs.take i
      if host.contains ':' then none
      else if cs.contains '[' then none
      else if cs.contains ']' then none
      else some (String.mk host, String.mk (cs.drop (i + 1)))

/-! ### Contexts, requests and the ServeMux configuration -/

/-- Model of runtime.ServerMetadata: the header-phase and trailer-phase
bags sent back from the gRPC server. -/
structure ServerMetadata where
  headerMD : MD := []
  trailerMD : MD := []
deriving DecidableEq, Inhabited

/-- Shallow model of context.Context as used by this code: an optional
deadline (duration from now, in nanoseconds), the tracing span attached by
opentracing.ContextWithSpan, the ServerMetadata value slot, and the
outgoing / incoming metadata attachment slots. -/
structure Context where
  deadline : Option Int := none
  spanPath : Option String := none
  serverMD : Option ServerMetadata := none
  outgoingMD : Option MD := none
  incomingMD : Option MD := none
deriving DecidableEq, Inhabited

/-- Model of context.Background(). -/
def background : Context := {}

/-- Model of context.WithTimeout: attach a deadline of now plus the given
duration, never loosening an existing earlier deadline. -/
def withTimeout (ctx : Context) (d : Int) : Context :=
  { ctx with deadline := some (match ctx.deadline with | none => d | some e => min e d) }

/-- An HTTP request as consumed by annotateContext: the header collection,
the Host field, the raw RemoteAddr string, the URL path, and the outcome
of tracing-carrier extraction over the headers (none means the extraction
succeeded; the tracer is an injected external collaborator). -/
structure Request where
  header : Header
  host : String := ""
  remoteAddr : String := ""
  path : String := ""
  traceErr : Option String := none

/-- The ServeMux configuration consumed by annotateContext: the
incoming-header matcher and the ordered metadata annotator list. -/
structure ServeMux where
  incomingHeaderMatcher : String → Option String
  metadataAnnotators : List (Context → Request → MD) := []

/-- Model of isPermanentHTTPHeader: the IANA permanent request header
allow-list, matched against the canonical header name. -/
def isPermanentHTTPHeader (hdr : String) : Bool :=
  hdr == "Accept" || hdr == "Accept-Charset" || hdr == "Accept-Language" ||
  hdr == "Accept-Ranges" || hdr == "Authorization" || hdr == "Cache-Control" ||
  hdr == "Content-Type" || hdr == "Cookie" || hdr == "Date" || hdr == "Expect" ||
  hdr == "From" || hdr == "Host" || hdr == "If-Match" || hdr == "If-Modified-Since" ||
  hdr == "If-None-Match" || hdr == "If-Schedule-Tag-Match" || hdr == "If-Unmodified-Since" ||
  hdr == "Max-Forwards" || hdr == "Origin" || hdr == "Pragma" || hdr == "Referer" ||
  hdr == "User-Agent" || hdr == "Via" || hdr == "Warning"

/-- Modelled from the spec: the default incoming-header matcher
(DefaultHeaderMatcher, defined in the repository's runtime/mux.go, which
is not part of the provided sources). Headers beginning with the custom
prefix Grpc-Metadata- map to their suffix lowercased; permanent IANA
headers map to the gateway prefix grpcgateway- followed by the lowercased
name; all other headers are dropped. -/
def defaultHeaderMatcher (key : String) : Option String :=
  if isPermanentHTTPHeader key then some ("grpcgateway-" ++ lowerString key)
  else if "Grpc-Metadata-".data.isPrefixOf key.data then
    some (lowerString (String.mk (key.data.drop 14)))
  else none

/-- Modelled from the spec: NewServeMux with no options (runtime/mux.go is
not part of the provided sources): the default header matcher and no
metadata annotators. -/
def newServeMux : ServeMux := { incomingHeaderMatcher := defaultHeaderMatcher }

/-! ### The annotation pipeline (annotateContext and its exported
wrappers) -/

/-- The timeout resolution step of annotateContext: the default timeout
when the Grpc-Timeout header is absent, the decoded duration otherwise,
with a decode failure surfaced as the invalid-grpc-timeout error. -/
def resolvedTimeout (req : Request) (defaultTimeout : Int) : Except String Int :=
  let tm := headerGet req.header "Grpc-Timeout"
  if tm = "" then .ok defaultTimeout
  else
    match timeoutDecode tm with
    | .ok t => .ok t
    | .error _ => .error ("invalid grpc-timeout: " ++ tm)

/-- The per-value body of the header loop of annotateContext: the
canonical name Authorization is always passed through unprefixed; a name
accepted by the incoming-header matcher contributes its mapped key, with
values of binary (suffix -Bin) headers base64-decoded first, a decode
failure aborting the operation. -/
def processVal (mux : ServeMux) (key val : String) : Except String (List (String × String)) :=
  let ck := canonicalMIMEHeaderKey key
  let authPairs := if ck = "Authorization" then [("authorization", val)] else []
  match mux.incomingHeaderMatcher ck with
  | some h =>
    if "-Bin".data.isSuffixOf ck.data then
      match decodeBinHeaderStr val with
      | none => .error ("invalid binary header " ++ ck)
      | some b => .ok (authPairs ++ [(h, b)])
    else .ok (authPairs ++ [(h, val)])
  | none => .ok authPairs

/-- The inner loop of annotateContext over the values of one header. -/
def processVals (mux : ServeMux) (key : String) : List String → Except String (List (String × String))
  | [] => .ok []
  | v :: vs =>
    match processVal mux key v with
    | .error e => .error e
    | .ok p =>
      match processVals mux key vs with
      | .error e => .error e
      | .ok rest => .ok (p ++ rest)

/-- The outer loop of annotateContext over the header collection. -/
def processHeaders (mux : ServeMux) : Header → Except String (List (String × String))
  | [] => .ok []
  | (k, vs) :: rest =>
    match processVals mux k vs with
    | .error e => .error e
    | .ok p =>
      match processHeaders mux rest with
      | .error e => .error e
      | .ok r => .ok (p ++ r)

/-- The complete pair accumulation of annotateContext: the header loop
followed by the x-forwarded-host entry (the X-Forwarded-Host header when
present, else the request host when nonempty) and the x-forwarded-for
entry (the bare client IP from RemoteAddr, or the existing forwarded
chain with the client IP appended; skipped silently when RemoteAddr is
empty or does not split as host and port). -/
def allPairs (mux : ServeMux) (req : Request) : Except String (List (String × String)) :=
  match processHeaders mux req.header with
  | .error e => .error e
  | .ok hdrPairs =>
    let pairs :=
      if headerGet req.header "X-Forwarded-Host" ≠ "" then
        hdrPairs ++ [(lowerString "X-Forwarded-Host", headerGet req.header "X-Forwarded-Host")]
      else if req.host ≠ "" then hdrPairs ++ [(lowerString "X-Forwarded-Host", req.host)]
      else hdrPairs
    let pairs :=
      if req.remoteAddr ≠ "" then
        match splitHostPort req.remoteAddr with
        | some (remoteIP, _) =>
          if headerGet req.header "X-Forwarded-For" = "" then
            pairs ++ [(lowerString "X-Forwarded-For", remoteIP)]
          else
            pairs ++ [(lowerString "X-Forwarded-For",
                       headerGet req.header "X-Forwarded-For" ++ ", " ++ remoteIP)]
        | none => pairs
      else pairs
    .ok pairs

/-- Model of annotateContext: fail on trace extraction failure, attach the
span, resolve the timeout (failing on a malformed Grpc-Timeout header),
accumulate the metadata pairs (failing on a bad binary header), apply the
deadline when the resolved timeout is nonzero, and either return the
context with no bag (when no pairs accumulated) or the bag built by
metadata.Pairs merged left-to-right with each registered metadata
annotator's output. -/
def annotateContext (mux : ServeMux) (req : Request) (ctx : Context)
    (defaultTimeout : Int) : Except String (Context × Option MD) :=
  match req.traceErr with
  | some e => .error ("invalid HTTP request parameters: " ++ e)
  | none =>
    let ctx := { ctx with spanPath := some req.path }
    match resolvedTimeout req defaultTimeout with
    | .error e => .error e
    | .ok timeout =>
      match allPairs mux req with
      | .error e => .error e
      | .ok pairs =>
        let ctx := if timeout ≠ 0 then withTimeout ctx timeout else ctx
        if pairs = [] then .ok (ctx, none)
        else
          let md := mdPairs pairs
          let md := mux.metadataAnnotators.foldl (fun m a => mdJoin m (a ctx req)) md
          .ok (ctx, some md)

/-- Model of AnnotateContext: run the shared pipeline and attach the bag,
when there is one, as outgoing metadata; an error yields no context. -/
def AnnotateContext (mux : ServeMux) (req : Request) (ctx : Context)
    (defaultTimeout : Int) : Except String Context :=
  match annotateContext mux req ctx defaultTimeout with
  | .error e => .error e
  | .ok (c, none) => .ok c
  | .ok (c, some md) => .ok { c with outgoingMD := some md }

/-- Model of AnnotateIncomingContext: run the shared pipeline and attach
the bag, when there is one, as incoming metadata; an error yields no
context. -/
def AnnotateIncomingContext (mux : ServeMux) (req : Request) (ctx : Context)
    (defaultTimeout : Int) : Except String Context :=
  match annotateContext mux req ctx defaultTimeout with
  | .error e => .error e
  | .ok (c, none) => .ok c
  | .ok (c, some md) => .ok { c with incomingMD := some md }

/-- Model of NewServerMetadataContext: attach a ServerMetadata value to
the context under the private server-metadata key. -/
def NewServerMetadataContext (ctx : Context) (md : ServerMetadata) : Context :=
  { ctx with serverMD := some md }

/-- Model of ServerMetadataFromContext: the attached ServerMetadata and
true, or the zero ServerMetadata and false when none was attached. -/
def ServerMetadataFromContext (ctx : Context) : ServerMetadata × Bool :=
  match ctx.serverMD with
  | some md => (md, true)
  | none => (default, false)

/-! ### Lemmas about metadata bags -/

lemma mdLookup_nil (k : String) : mdLookup [] k = [] := rfl

lemma mdLookup_cons (k0 : String) (vs : List String) (rest : MD) (k : String) :
    mdLookup ((k0, vs) :: rest) k = if k0 = k then vs else mdLookup rest k := by
  by_cases h : k0 = k <;> simp [mdLookup, List.find?_cons, h]

lemma mdLookup_eq_nil (md : MD) (k : String) (h : ∀ e ∈ md, e.1 ≠ k) :
    mdLookup md k = [] := by
  induction md with
  | nil => rfl
  | cons e rest ih =>
    obtain ⟨k0, vs⟩ := e
    rw [mdLookup_cons]
    have hne : k0 ≠ k := h (k0, vs) (by simp)
    simp only [hne, if_false]
    exact ih (fun f hf => h f (by simp [hf]))

lemma mdLookup_mdAppendVals (md : MD) (k : String) (vs : List String) (k' : String) :
    mdLookup (mdAppendVals md k vs) k' =
      if k' = k then mdLookup md k' ++ vs else mdLookup md k' := by
  induction md with
  | nil =>
    show mdLookup [(k, vs)] k' = _
    rw [mdLookup_cons, mdLookup_nil]
    by_cases h : k' = k
    · rw [if_pos h.symm, if_pos h]
      rfl
    · rw [if_neg (fun hh => h hh.symm), if_neg h]
  | cons e rest ih =>
    obtain ⟨k0, vs0⟩ := e
    by_cases he : k0 = k
    · have hstep : mdAppendVals ((k0, vs0) :: rest) k vs = (k0, vs0 ++ vs) :: rest := by
        simp [mdAppendVals, he]
      rw [hstep, mdLookup_cons, mdLookup_cons]
      by_cases h0 : k0 = k'
      · rw [if_pos h0, if_pos h0, if_pos (h0.symm.trans he)]
      · rw [if_neg h0, if_neg h0, if_neg (fun hh => h0 (he.trans hh.symm))]
    · have hstep : mdAppendVals ((k0, vs0) :: rest) k vs = (k0, vs0) :: mdAppendVals rest k vs := by
        simp [mdAppendVals, he]
      rw [hstep, mdLookup_cons, ih, mdLookup_cons]
      by_cases h0 : k0 = k'
      · have hk : ¬ k' = k := fun hh => he (h0.trans hh)
        rw [if_pos h0, if_neg hk, if_pos h0]
      · by_cases h : k' = k
        · rw [if_neg h0, if_pos h, if_pos h, if_neg h0]
        · rw [if_neg h0, if_neg h, if_neg h, if_neg h0]

lemma mdAdd_eq_mdAppendVals (md : MD) (k v : String) :
    mdAdd md k v = mdAppendVals md k [v] := by
  induction md with
  | nil => rfl
  | cons e rest ih =>
    obtain ⟨k0, vs0⟩ := e
    by_cases he : k0 = k <;> simp [mdAdd, mdAppendVals, he, ih]

lemma mdLookup_mdAdd (md : MD) (k v k' : String) :
    mdLookup (mdAdd md k v) k' =
      if k' = k then mdLookup md k' ++ [v] else mdLookup md k' := by
  rw [mdAdd_eq_mdAppendVals, mdLookup_mdAppendVals]

lemma mdLookup_mdJoin (a b : MD) (k : String) (hb : mdWF b) :
    mdLookup (mdJoin a b) k = mdLookup a k ++ mdLookup b k := by
  induction b generalizing a with
  | nil => simp [mdJoin, mdLookup_nil]
  | cons e rest ih =>
    obtain ⟨k0, vs0⟩ := e
    unfold mdWF at hb
    rw [List.map_cons] at hb
    have hk0 : k0 ∉ rest.map Prod.fst := (List.nodup_cons.mp hb).1
    have hb' : mdWF rest := (List.nodup_cons.mp hb).2
    have step : mdJoin a ((k0, vs0) :: rest) = mdJoin (mdAppendVals a k0 vs0) rest := rfl
    rw [step, ih _ hb', mdLookup_mdAppendVals, mdLookup_cons]
    by_cases h : k = k0
    · subst h
      have hnil : mdLookup rest k = [] := by
        apply mdLookup_eq_nil
        intro f hf hkf
        exact hk0 (hkf ▸ List.mem_map_of_mem Prod.fst hf)
      simp [hnil]
    · have h2 : ¬ k0 = k := fun hh => h hh.symm
      simp [h, h2, List.append_assoc]

lemma mdLookup_foldl_mdJoin (ms : List MD) (base : MD) (k : String)
    (h : ∀ m ∈ ms, mdWF m) :
    mdLookup (ms.foldl mdJoin base) k
      = mdLookup base k ++ (ms.map (fun m => mdLookup m k)).flatten := by
  induction ms generalizing base with
  | nil => simp
  | cons m rest ih =>
    have hm : mdWF m := h m (by simp)
    have hrest : ∀ m2 ∈ rest, mdWF m2 := fun m2 hm2 => h m2 (by simp [hm2])
    simp only [List.foldl_cons, List.map_cons, List.flatten_cons]
    rw [ih _ hrest, mdLookup_mdJoin _ _ _ hm, List.append_assoc]

/-! ### Lemmas about the header collection and concrete header names -/

lemma headerGet_nil (k : String) : headerGet [] k = "" := rfl

lemma headerGet_cons (k0 : String) (vs : List String) (rest : Header) (k : String) :
    headerGet ((k0, vs) :: rest) k =
      if k0 = canonicalMIMEHeaderKey k then vs.headD "" else headerGet rest k := by
  unfold headerGet
  by_cases h : k0 = canonicalMIMEHeaderKey k
  · rw [if_pos h, List.find?_cons_of_pos _ (by simp [h])]
    cases vs <;> rfl
  · rw [if_neg h, List.find?_cons_of_neg _ (by simp [h])]

lemma canon_Authorization : canonicalMIMEHeaderKey "Authorization" = "Authorization" := by decide

lemma canon_GT : canonicalMIMEHeaderKey "Grpc-Timeout" = "Grpc-Timeout" := by decide

lemma canon_XFH : canonicalMIMEHeaderKey "X-Forwarded-Host" = "X-Forwarded-Host" := by decide

lemma canon_XFF : canonicalMIMEHeaderKey "X-Forwarded-For" = "X-Forwarded-For" := by decide

lemma canon_GMTB : canonicalMIMEHeaderKey "Grpc-Metadata-Test-Bin" = "Grpc-Metadata-Test-Bin" := by
  decide

lemma match_Authorization :
    defaultHeaderMatcher "Authorization" = some "grpcgateway-authorization" := by decide

lemma match_GMTB : defaultHeaderMatcher "Grpc-Metadata-Test-Bin" = some "test-bin" := by decide

lemma lower_XFH : lowerString "X-Forwarded-Host" = "x-forwarded-host" := by decide

lemma lower_XFF : lowerString "X-Forwarded-For" = "x-forwarded-for" := by decide

/-! ### Claim C10 -/

/-- C10: ServerMetadataFromContext retrieves exactly the ServerMetadata
attached by NewServerMetadataContext, with ok true; on a context with no
attached ServerMetadata it reports ok false. -/
theorem claim_C10 :
    (∀ (ctx : Context) (md : ServerMetadata),
        ServerMetadataFromContext (NewServerMetadataContext ctx md) = (md, true))
  ∧ (∀ ctx : Context, ctx.serverMD = none → (ServerMetadataFromContext ctx).2 = false) := by
  constructor
  · intro ctx md
    rfl
  · intro ctx h
    simp [ServerMetadataFromContext, h]

/-- C10 witness: the roundtrip evaluated on the background context and a
concrete ServerMetadata value. -/
theorem claim_C10_witness :
    ServerMetadataFromContext
        (NewServerMetadataContext background { headerMD := [("k", ["v"])] })
      = ({ headerMD := [("k", ["v"])] }, true)
    ∧ (ServerMetadataFromContext background).2 = false :=
  ⟨claim_C10.1 background { headerMD := [("k", ["v"])] }, claim_C10.2 background rfl⟩

/-! ### Claim C2 -/

lemma timeoutUnitToDuration_eq_none_iff (c : Char) :
    timeoutUnitToDuration c = none ↔
      ¬(c = 'H' ∨ c = 'M' ∨ c = 'S' ∨ c = 'm' ∨ c = 'u' ∨ c = 'n') := by
  unfold timeoutUnitToDuration
  split_ifs <;> simp_all

/-- C2: timeoutDecode succeeds exactly when the input has at least two
characters, the last character is one of the six unit letters, and the
prefix parses as a base-10 signed 64-bit integer; the result is the
parsed integer times the unit duration (in int64 arithmetic), as on the
examples 17H and 100000007n. -/
theorem claim_C2 (s : String) :
    ((∃ d, timeoutDecode s = .ok d) ↔
      (2 ≤ s.data.length ∧
        (s.data.getLastD ' ' = 'H' ∨ s.data.getLastD ' ' = 'M' ∨
         s.data.getLastD ' ' = 'S' ∨ s.data.getLastD ' ' = 'm' ∨
         s.data.getLastD ' ' = 'u' ∨ s.data.getLastD ' ' = 'n') ∧
        (parseInt64 s.data.dropLast).isSome))
  ∧ (∀ t : Int, parseInt64 s.data.dropLast = some t → 2 ≤ s.data.length →
      ((s.data.getLastD ' ' = 'H' → timeoutDecode s = .ok (i64 (3600000000000 * t))) ∧
       (s.data.getLastD ' ' = 'M' → timeoutDecode s = .ok (i64 (60000000000 * t))) ∧
       (s.data.getLastD ' ' = 'S' → timeoutDecode s = .ok (i64 (1000000000 * t))) ∧
       (s.data.getLastD ' ' = 'm' → timeoutDecode s = .ok (i64 (1000000 * t))) ∧
       (s.data.getLastD ' ' = 'u' → timeoutDecode s = .ok (i64 (1000 * t))) ∧
       (s.data.getLastD ' ' = 'n' → timeoutDecode s = .ok (i64 (1 * t)))))
  ∧ timeoutDecode "17H" = .ok 61200000000000
  ∧ timeoutDecode "100000007n" = .ok 100000007 := by
  refine ⟨?_, ?_, rfl, rfl⟩
  · unfold timeoutDecode
    by_cases hl : s.data.length < 2
    · rw [if_pos hl]
      constructor
      · rintro ⟨d, hd⟩
        exact absurd hd (by simp)
      · rintro ⟨h2, -, -⟩
        omega
    · rw [if_neg hl]
      rcases hu : timeoutUnitToDuration (s.data.getLastD ' ') with _ | d
      · simp only [hu]
        constructor
        · rintro ⟨d, hd⟩
          exact absurd hd (by simp)
        · rintro ⟨-, hmem, -⟩
          rw [timeoutUnitToDuration_eq_none_iff] at hu
          exact absurd hmem hu
      · rcases hp : parseInt64 s.data.dropLast with _ | t
        · simp only [hu, hp]
          constructor
          · rintro ⟨d2, hd⟩
            exact absurd hd (by simp)
          · rintro ⟨-, -, hps⟩
            exact absurd hps (by simp)
        · simp only [hu, hp]
          constructor
          · intro _
            refine ⟨by omega, ?_, by simp⟩
            by_contra hmem
            rw [← timeoutUnitToDuration_eq_none_iff] at hmem
            rw [hmem] at hu
            exact absurd hu (by simp)
          · intro _
            exact ⟨i64 (d * t), rfl⟩
  · intro t hp hl
    have hl2 : ¬ s.data.length < 2 := by omega
    refine ⟨?_, ?_, ?_, ?_, ?_, ?_⟩ <;>
      · intro hc
        unfold timeoutDecode
        rw [if_neg hl2, hc]
        simp [timeoutUnitToDuration, hp]

/-! ### Claim C6: base64 dispatch and roundtrip -/

lemma charToSextet_sextetToChar : ∀ n < 64, charToSextet (sextetToChar n) = some n := by decide

lemma sextetToChar_ne_pad : ∀ n < 64, sextetToChar n ≠ 61 := by decide

lemma decodeRaw_encodeRaw (bs : List Nat) (h : ∀ x ∈ bs, x < 256) :
    decodeRawB64 (encodeRawB64 bs) = some bs := by
  induction bs using encodeRawB64.induct with
  | case1 => rfl
  | case2 b0 =>
    have hb0 : b0 < 256 := h b0 (by simp)
    simp only [encodeRawB64, decodeRawB64]
    rw [charToSextet_sextetToChar (b0 / 4) (by omega),
        charToSextet_sextetToChar (b0 % 4 * 16) (by omega)]
    simp only [Option.some.injEq, List.cons.injEq, and_true]
    omega
  | case3 b0 b1 =>
    have hb0 : b0 < 256 := h b0 (by simp)
    have hb1 : b1 < 256 := h b1 (by simp)
    simp only [encodeRawB64, decodeRawB64]
    rw [charToSextet_sextetToChar (b0 / 4) (by omega),
        charToSextet_sextetToChar (b0 % 4 * 16 + b1 / 16) (by omega),
        charToSextet_sextetToChar (b1 % 16 * 4) (by omega)]
    simp only [Option.some.injEq, List.cons.injEq, and_true]
    constructor <;> omega
  | case4 b0 b1 b2 rest ih =>
    have hb0 : b0 < 256 := h b0 (by simp)
    have hb1 : b1 < 256 := h b1 (by simp)
    have hb2 : b2 < 256 := h b2 (by simp)
    have hrest : ∀ x ∈ rest, x < 256 := fun x hx => h x (by simp [hx])
    simp only [encodeRawB64, decodeRawB64]
    rw [charToSextet_sextetToChar (b0 / 4) (by omega),
        charToSextet_sextetToChar (b0 % 4 * 16 + b1 / 16) (by omega),
        charToSextet_sextetToChar (b1 % 16 * 4 + b2 / 64) (by omega),
        charToSextet_sextetToChar (b2 % 64) (by omega), ih hrest]
    simp only [Option.some.injEq, List.cons.injEq, and_true]
    refine ⟨by omega, by omega, by omega⟩

lemma encodeRawB64_length (bs : List Nat) :
    (encodeRawB64 bs).length =
      bs.length / 3 * 4 + (if bs.length % 3 = 0 then 0 else bs.length % 3 + 1) := by
  induction bs using encodeRawB64.induct with
  | case1 => rfl
  | case2 b0 => simp [encodeRawB64]
  | case3 b0 b1 => simp [encodeRawB64]
  | case4 b0 b1 b2 rest ih =>
    simp only [encodeRawB64, List.length_cons, ih]
    split_ifs <;> omega

lemma encodeStdB64_length_mod (bs : List Nat) : (encodeStdB64 bs).length % 4 = 0 := by
  unfold encodeStdB64
  rw [List.length_append, encodeRawB64_length]
  have h3 : bs.length % 3 = 0 ∨ bs.length % 3 = 1 ∨ bs.length % 3 = 2 := by omega
  rcases h3 with h | h | h <;> simp [h] <;> omega

lemma encodeStdB64_eq_raw (bs : List Nat) (h : bs.length % 3 = 0) :
    encodeStdB64 bs = encodeRawB64 bs := by
  unfold encodeStdB64
  simp [h]

lemma encodeStdB64_ne_nil (bs : List Nat) (h : bs ≠ []) : encodeStdB64 bs ≠ [] := by
  intro hc
  have h1 : (encodeStdB64 bs).length = 0 := by rw [hc]; rfl
  unfold encodeStdB64 at h1
  rw [List.length_append, encodeRawB64_length] at h1
  have hbs : bs.length ≠ 0 := fun hl => h (List.length_eq_zero.mp hl)
  split_ifs at h1 <;> simp only [List.length_cons, List.length_nil] at h1 <;> omega

lemma decodeStd_encodeStd (bs : List Nat) (h : ∀ x ∈ bs, x < 256) :
    decodeStdB64 (encodeStdB64 bs) = some bs := by
  induction bs using encodeRawB64.induct with
  | case1 => rfl
  | case2 b0 =>
    have hb0 : b0 < 256 := h b0 (by simp)
    have hs0 := charToSextet_sextetToChar (b0 / 4) (by omega)
    have hs1 := charToSextet_sextetToChar (b0 % 4 * 16) (by omega)
    simp [encodeStdB64, encodeRawB64, decodeStdB64, hs0, hs1]
    omega
  | case3 b0 b1 =>
    have hb0 : b0 < 256 := h b0 (by simp)
    have hb1 : b1 < 256 := h b1 (by simp)
    have hs0 := charToSextet_sextetToChar (b0 / 4) (by omega)
    have hs1 := charToSextet_sextetToChar (b0 % 4 * 16 + b1 / 16) (by omega)
    have hs2 := charToSextet_sextetToChar (b1 % 16 * 4) (by omega)
    have hne : sextetToChar (b1 % 16 * 4) ≠ 61 := sextetToChar_ne_pad _ (by omega)
    simp [encodeStdB64, encodeRawB64, decodeStdB64, hs0, hs1, hs2, hne]
    constructor <;> omega
  | case4 b0 b1 b2 rest ih =>
    have hb0 : b0 < 256 := h b0 (by simp)
    have hb1 : b1 < 256 := h b1 (by simp)
    have hb2 : b2 < 256 := h b2 (by simp)
    have hrest : ∀ x ∈ rest, x < 256 := fun x hx => h x (by simp [hx])
    have hs0 := charToSextet_sextetToChar (b0 / 4) (by omega)
    have hs1 := charToSextet_sextetToChar (b0 % 4 * 16 + b1 / 16) (by omega)
    have hs2 := charToSextet_sextetToChar (b1 % 16 * 4 + b2 / 64) (by omega)
    have hs3 := charToSextet_sextetToChar (b2 % 64) (by omega)
    have hne2 : sextetToChar (b1 % 16 * 4 + b2 / 64) ≠ 61 := sextetToChar_ne_pad _ (by omega)
    have hne3 : sextetToChar (b2 % 64) ≠ 61 := sextetToChar_ne_pad _ (by omega)
    have hsplit : encodeStdB64 (b0 :: b1 :: b2 :: rest) =
        sextetToChar (b0 / 4) :: sextetToChar (b0 % 4 * 16 + b1 / 16) ::
        sextetToChar (b1 % 16 * 4 + b2 / 64) :: sextetToChar (b2 % 64) ::
        encodeStdB64 rest := by
      unfold encodeStdB64
      have hm : (b0 :: b1 :: b2 :: rest).length % 3 = rest.length % 3 := by
        simp only [List.length_cons]
        omega
      rw [hm]
      simp [encodeRawB64, List.cons_append]
    rw [hsplit]
    by_cases hrnil : rest = []
    · subst hrnil
      simp [encodeStdB64, encodeRawB64, decodeStdB64, hs0, hs1, hs2, hs3, hne2, hne3]
      refine ⟨by omega, by omega, by omega⟩
    · obtain ⟨c, cs, he⟩ := List.exists_cons_of_ne_nil (encodeStdB64_ne_nil rest hrnil)
      have htl : decodeStdB64 (c :: cs) = some rest := he ▸ ih hrest
      rw [he]
      simp only [decodeStdB64, List.isEmpty_cons, Bool.false_eq_true, if_false, hs0, hs1, hs2,
        hs3, htl]
      simp only [Option.some.injEq, List.cons.injEq, and_true]
      refine ⟨by omega, by omega, by omega⟩

lemma decodeBinHeader_encodeStd (bs : List Nat) (h : ∀ x ∈ bs, x < 256) :
    decodeBinHeader (encodeStdB64 bs) = some bs := by
  unfold decodeBinHeader
  rw [if_pos (encodeStdB64_length_mod bs)]
  exact decodeStd_encodeStd bs h

lemma decodeBinHeader_encodeRaw (bs : List Nat) (h : ∀ x ∈ bs, x < 256) :
    decodeBinHeader (encodeRawB64 bs) = some bs := by
  have h3 : bs.length % 3 = 0 ∨ bs.length % 3 = 1 ∨ bs.length % 3 = 2 := by omega
  rcases h3 with h0 | h1 | h2
  · rw [← encodeStdB64_eq_raw bs h0]
    exact decodeBinHeader_encodeStd bs h
  · have hlen := encodeRawB64_length bs
    rw [h1] at hlen
    simp at hlen
    unfold decodeBinHeader
    rw [if_neg (by omega)]
    exact decodeRaw_encodeRaw bs h
  · have hlen := encodeRawB64_length bs
    rw [h2] at hlen
    simp at hlen
    unfold decodeBinHeader
    rw [if_neg (by omega)]
    exact decodeRaw_encodeRaw bs h

/-- C6: decodeBinHeader selects the padded standard decoder exactly for
inputs of length divisible by four and the raw decoder otherwise; it
inverts both the padded and the raw standard encoding of any byte
sequence; and a binary-header decode failure surfaces as an error of the
annotation operation. -/
theorem claim_C6 :
    (∀ v : List Nat,
        decodeBinHeader v = if v.length % 4 = 0 then decodeStdB64 v else decodeRawB64 v)
  ∧ (∀ bs : List Nat, (∀ x ∈ bs, x < 256) →
      decodeBinHeader (encodeStdB64 bs) = some bs ∧
      decodeBinHeader (encodeRawB64 bs) = some bs)
  ∧ (∀ v host addr path : String, decodeBinHeaderStr v = none →
      ∃ e, AnnotateContext newServeMux
        { header := [("Grpc-Metadata-Test-Bin", [v])], host := host, remoteAddr := addr,
          path := path } background 0 = .error e) := by
  refine ⟨fun v => rfl, fun bs h => ⟨decodeBinHeader_encodeStd bs h, decodeBinHeader_encodeRaw bs h⟩, ?_⟩
  intro v host addr path hv
  have hget : headerGet [("Grpc-Metadata-Test-Bin", [v])] "Grpc-Timeout" = "" := by
    rw [headerGet_cons, canon_GT, if_neg (by decide), headerGet_nil]
  have hpv : processVal newServeMux "Grpc-Metadata-Test-Bin" v
      = .error ("invalid binary header " ++ "Grpc-Metadata-Test-Bin") := by
    unfold processVal
    rw [canon_GMTB]
    have hne : ("Grpc-Metadata-Test-Bin" : String) ≠ "Authorization" := by decide
    have hsuf : ("-Bin".data.isSuffixOf "Grpc-Metadata-Test-Bin".data) = true := by decide
    simp only [newServeMux, match_GMTB, hne, if_false, hsuf, if_true, hv]
  have hph : processHeaders newServeMux [("Grpc-Metadata-Test-Bin", [v])]
      = .error ("invalid binary header " ++ "Grpc-Metadata-Test-Bin") := by
    simp only [processHeaders, processVals, hpv]
  refine ⟨"invalid binary header " ++ "Grpc-Metadata-Test-Bin", ?_⟩
  unfold AnnotateContext annotateContext resolvedTimeout allPairs
  simp [hget, hph]

/-- C6 witness: both encodings of a concrete byte sequence decode back to
it, and a concrete non-base64 value aborts annotation with an error. -/
theorem claim_C6_witness :
    decodeBinHeader (encodeStdB64 [0, 255, 7, 9]) = some [0, 255, 7, 9]
    ∧ decodeBinHeader (encodeRawB64 [0, 255, 7, 9]) = some [0, 255, 7, 9]
    ∧ ∃ e, AnnotateContext newServeMux
        { header := [("Grpc-Metadata-Test-Bin", ["!"])], host := "h", remoteAddr := "",
          path := "" } background 0 = .error e :=
  ⟨(claim_C6.2.1 [0, 255, 7, 9] (by decide)).1,
   (claim_C6.2.1 [0, 255, 7, 9] (by decide)).2,
   claim_C6.2.2 "!" "h" "" "" (by decide)⟩

/-! ### Claim C4: failure atomicity -/

/-- The binary-header failure condition of the header loop: some header
value of a matched binary (-Bin) header fails base64 decoding. -/
def binHeaderFails (mux : ServeMux) (req : Request) : Prop :=
  ∃ e ∈ req.header, ∃ v ∈ e.2,
    (mux.incomingHeaderMatcher (canonicalMIMEHeaderKey e.1)).isSome ∧
    ("-Bin".data.isSuffixOf (canonicalMIMEHeaderKey e.1).data = true) ∧
    decodeBinHeaderStr v = none

/-- The three failure causes of annotateContext: tracing-carrier
extraction failure, a present but malformed Grpc-Timeout header, and a
binary-header decode failure on a matched header. -/
def annotateFailure (mux : ServeMux) (req : Request) : Prop :=
  req.traceErr.isSome
  ∨ (headerGet req.header "Grpc-Timeout" ≠ "" ∧
      ∃ er, timeoutDecode (headerGet req.header "Grpc-Timeout") = .error er)
  ∨ binHeaderFails mux req

lemma processVal_error_iff (mux : ServeMux) (k v : String) :
    (∃ er, processVal mux k v = .error er) ↔
      ((mux.incomingHeaderMatcher (canonicalMIMEHeaderKey k)).isSome ∧
       ("-Bin".data.isSuffixOf (canonicalMIMEHeaderKey k).data = true) ∧
       decodeBinHeaderStr v = none) := by
  unfold processVal
  rcases hm : mux.incomingHeaderMatcher (canonicalMIMEHeaderKey k) with _ | h
  · simp [hm]
  · by_cases hs : "-Bin".data.isSuffixOf (canonicalMIMEHeaderKey k).data = true
    · rcases hd : decodeBinHeaderStr v with _ | b
      · simp [hm, hs, hd]
      · simp [hm, hs, hd]
    · simp [hm, hs]

lemma processVals_error_iff (mux : ServeMux) (k : String) (vs : List String) :
    (∃ er, processVals mux k vs = .error er) ↔
      ∃ v ∈ vs, ((mux.incomingHeaderMatcher (canonicalMIMEHeaderKey k)).isSome ∧
        ("-Bin".data.isSuffixOf (canonicalMIMEHeaderKey k).data = true) ∧
        decodeBinHeaderStr v = none) := by
  induction vs with
  | nil => simp [processVals]
  | cons v vt ih =>
    simp only [processVals]
    rcases hpv : processVal mux k v with er | p
    · constructor
      · intro _
        exact ⟨v, by simp, (processVal_error_iff mux k v).mp ⟨er, hpv⟩⟩
      · intro _
        exact ⟨er, rfl⟩
    · rcases hrest : processVals mux k vt with er | r
      · constructor
        · intro _
          obtain ⟨v2, hv2, hc⟩ := ih.mp ⟨er, hrest⟩
          exact ⟨v2, by simp [hv2], hc⟩
        · intro _
          exact ⟨er, rfl⟩
      · constructor
        · rintro ⟨er, her⟩
          exact absurd her (by simp)
        · rintro ⟨v2, hv2, hc⟩
          rcases List.mem_cons.mp hv2 with rfl | hv2t
          · obtain ⟨er2, he2⟩ := (processVal_error_iff mux k v2).mpr hc
            rw [hpv] at he2
            cases he2
          · obtain ⟨er2, he2⟩ := ih.mpr ⟨v2, hv2t, hc⟩
            rw [hrest] at he2
            cases he2

lemma processHeaders_error_iff (mux : ServeMux) (h : Header) :
    (∃ er, processHeaders mux h = .error er) ↔
      ∃ e ∈ h, ∃ v ∈ e.2,
        ((mux.incomingHeaderMatcher (canonicalMIMEHeaderKey e.1)).isSome ∧
         ("-Bin".data.isSuffixOf (canonicalMIMEHeaderKey e.1).data = true) ∧
         decodeBinHeaderStr v = none) := by
  induction h with
  | nil => simp [processHeaders]
  | cons e rest ih =>
    obtain ⟨k, vs⟩ := e
    simp only [processHeaders]
    rcases hv : processVals mux k vs with er | p
    · constructor
      · intro _
        obtain ⟨v2, hv2, hc⟩ := (processVals_error_iff mux k vs).mp ⟨er, hv⟩
        exact ⟨(k, vs), by simp, v2, hv2, hc⟩
      · intro _
        exact ⟨er, rfl⟩
    · rcases hrest : processHeaders mux rest with er | r
      · constructor
        · intro _
          obtain ⟨e2, he2, v2, hv2, hc⟩ := ih.mp ⟨er, hrest⟩
          exact ⟨e2, by simp [he2], v2, hv2, hc⟩
        · intro _
          exact ⟨er, rfl⟩
      · constructor
        · rintro ⟨er, her⟩
          exact absurd her (by simp)
        · rintro ⟨e2, he2, v2, hv2, hc⟩
          rcases List.mem_cons.mp he2 with rfl | he2t
          · obtain ⟨er2, her2⟩ := (processVals_error_iff mux k vs).mpr ⟨v2, hv2, hc⟩
            rw [hv] at her2
            cases her2
          · obtain ⟨er2, her2⟩ := ih.mpr ⟨e2, he2t, v2, hv2, hc⟩
            rw [hrest] at her2
            cases her2

lemma allPairs_error_iff_processHeaders (mux : ServeMux) (req : Request) :
    (∃ er, allPairs mux req = .error er) ↔
      (∃ er, processHeaders mux req.header = .error er) := by
  unfold allPairs
  rcases hph : processHeaders mux req.header with er | ps
  · simp [hph]
  · simp [hph]

lemma resolvedTimeout_error_iff (req : Request) (dt : Int) :
    (∃ er, resolvedTimeout req dt = .error er) ↔
      (headerGet req.header "Grpc-Timeout" ≠ "" ∧
        ∃ er, timeoutDecode (headerGet req.header "Grpc-Timeout") = .error er) := by
  unfold resolvedTimeout
  by_cases htm : headerGet req.header "Grpc-Timeout" = ""
  · simp [htm]
  · rcases htd : timeoutDecode (headerGet req.header "Grpc-Timeout") with er | t
    · simp [htm, htd]
    · simp [htm, htd]

lemma annotateContext_error_iff (mux : ServeMux) (req : Request) (ctx : Context) (dt : Int) :
    (∃ e, annotateContext mux req ctx dt = .error e) ↔ annotateFailure mux req := by
  unfold annotateContext annotateFailure
  rcases ht : req.traceErr with _ | e0
  · simp only []
    rcases hrt : resolvedTimeout req dt with er | t
    · constructor
      · intro _
        exact Or.inr (Or.inl ((resolvedTimeout_error_iff req dt).mp ⟨er, hrt⟩))
      · intro _
        exact ⟨er, rfl⟩
    · rcases hap : allPairs mux req with er | ps
      · constructor
        · intro _
          refine Or.inr (Or.inr ?_)
          have := (allPairs_error_iff_processHeaders mux req).mp ⟨er, hap⟩
          exact (processHeaders_error_iff mux req.header).mp this
        · intro _
          exact ⟨er, rfl⟩
      · constructor
        · rintro ⟨e, he⟩
          by_cases hps : ps = [] <;> simp [hps] at he
        · rintro (h1 | h2 | h3)
          · exact absurd h1 (by simp)
          · obtain ⟨er, her⟩ := (resolvedTimeout_error_iff req dt).mpr h2
            rw [hrt] at her
            cases her
          · obtain ⟨er, her⟩ := (allPairs_error_iff_processHeaders mux req).mpr
              ((processHeaders_error_iff mux req.header).mpr h3)
            rw [hap] at her
            cases her
  · constructor
    · intro _
      exact Or.inl (by simp [ht])
    · intro _
      exact ⟨_, rfl⟩

/-- C4: the exported annotation operations return an error exactly when
trace extraction fails, the Grpc-Timeout header is present and malformed,
or a matched binary header fails base64 decoding; in the error case the
Except result carries an error only, so the caller observes no context
and no partially assembled metadata bag. -/
theorem claim_C4 (mux : ServeMux) (req : Request) (ctx : Context) (dt : Int) :
    ((∃ e, AnnotateContext mux req ctx dt = .error e) ↔ annotateFailure mux req)
  ∧ ((∃ e, AnnotateIncomingContext mux req ctx dt = .error e) ↔ annotateFailure mux req) := by
  have hwrapO : (∃ e, AnnotateContext mux req ctx dt = .error e) ↔
      (∃ e, annotateContext mux req ctx dt = .error e) := by
    unfold AnnotateContext
    rcases hac : annotateContext mux req ctx dt with er | ⟨c, m⟩
    · simp [hac]
    · rcases m with _ | md <;> simp [hac]
  have hwrapI : (∃ e, AnnotateIncomingContext mux req ctx dt = .error e) ↔
      (∃ e, annotateContext mux req ctx dt = .error e) := by
    unfold AnnotateIncomingContext
    rcases hac : annotateContext mux req ctx dt with er | ⟨c, m⟩
    · simp [hac]
    · rcases m with _ | md <;> simp [hac]
  rw [hwrapO, hwrapI, annotateContext_error_iff]
  simp

/-! ### Claim C5: timeout resolution and deadlines -/

/-- C5: a present, parseable Grpc-Timeout header resolves to its decoded
duration; a present, unparseable one makes the whole annotation fail; an
absent one resolves to the configured default; and on success the
returned context carries no deadline when the resolved timeout is zero
and a deadline of now plus the resolved timeout otherwise. -/
theorem claim_C5 (mux : ServeMux) (req : Request) (dt : Int) :
    ((∃ e, resolvedTimeout req dt = .error e) →
      ∃ e2, annotateContext mux req background dt = .error e2)
  ∧ (headerGet req.header "Grpc-Timeout" = "" → resolvedTimeout req dt = .ok dt)
  ∧ (∀ tm d, headerGet req.header "Grpc-Timeout" = tm → tm ≠ "" → timeoutDecode tm = .ok d →
      resolvedTimeout req dt = .ok d)
  ∧ (∀ c m d, annotateContext mux req background dt = .ok (c, m) →
      resolvedTimeout req dt = .ok d →
      c.deadline = if d = 0 then none else some d) := by
  refine ⟨?_, ?_, ?_, ?_⟩
  · rintro ⟨e, he⟩
    unfold annotateContext
    rcases ht : req.traceErr with _ | e0
    · rw [he]
      exact ⟨e, rfl⟩
    · exact ⟨_, rfl⟩
  · intro h
    unfold resolvedTimeout
    rw [h]
    rfl
  · intro tm d htm hne hdec
    unfold resolvedTimeout
    rw [htm, if_neg hne, hdec]
  · intro c m d hok hres
    unfold annotateContext at hok
    rcases ht : req.traceErr with _ | e0
    · rcases hap : allPairs mux req with er | ps
      · simp [ht, hres, hap] at hok
      · simp only [ht, hres, hap] at hok
        by_cases hps : ps = []
        · rw [if_pos hps] at hok
          simp only [Except.ok.injEq, Prod.mk.injEq] at hok
          obtain ⟨hc, -⟩ := hok
          subst hc
          by_cases hd : d = 0 <;> simp [hd, withTimeout, background]
        · rw [if_neg hps] at hok
          simp only [Except.ok.injEq, Prod.mk.injEq] at hok
          obtain ⟨hc, -⟩ := hok
          subst hc
          by_cases hd : d = 0 <;> simp [hd, withTimeout, background]
    · simp [ht] at hok

/-- C5 witness: with a Grpc-Timeout header of 17H and default timeout 0,
the annotated context carries a 17-hour deadline. -/
theorem claim_C5_witness :
    ({ deadline := some 61200000000000, spanPath := some "" } : Context).deadline
      = (if (61200000000000 : Int) = 0 then none else some 61200000000000) :=
  (claim_C5 newServeMux { header := [("Grpc-Timeout", ["17H"])] } 0).2.2.2
    { deadline := some 61200000000000, spanPath := some "" } none 61200000000000 rfl rfl

/-! ### Claims C7 and C8 -/

lemma mdLookup_foldl_annotators (as : List (Context → Request → MD)) (c : Context)
    (r : Request) (base : MD) (k : String) (h : ∀ a ∈ as, mdWF (a c r)) :
    mdLookup (as.foldl (fun m a => mdJoin m (a c r)) base) k
      = mdLookup base k ++ (as.map (fun a => mdLookup (a c r) k)).flatten := by
  induction as generalizing base with
  | nil => simp
  | cons a rest ih =>
    have ha : mdWF (a c r) := h a (by simp)
    have hrest : ∀ a2 ∈ rest, mdWF (a2 c r) := fun a2 h2 => h a2 (by simp [h2])
    simp only [List.foldl_cons, List.map_cons, List.flatten_cons]
    rw [ih _ hrest, mdLookup_mdJoin _ _ _ ha, List.append_assoc]

lemma annotateContext_fields (mux : ServeMux) (req : Request) (dt : Int) (c : Context)
    (m : Option MD) (hok : annotateContext mux req background dt = .ok (c, m)) :
    c.outgoingMD = none ∧ c.incomingMD = none := by
  unfold annotateContext at hok
  rcases ht : req.traceErr with _ | e0
  · rcases hrt : resolvedTimeout req dt with er | t
    · simp [ht, hrt] at hok
    · rcases hap : allPairs mux req with er | ps
      · simp [ht, hrt, hap] at hok
      · simp only [ht, hrt, hap] at hok
        by_cases hps : ps = []
        · rw [if_pos hps] at hok
          simp only [Except.ok.injEq, Prod.mk.injEq] at hok
          obtain ⟨hc, -⟩ := hok
          subst hc
          by_cases hd : t = 0 <;> simp [hd, withTimeout, background]
        · rw [if_neg hps] at hok
          simp only [Except.ok.injEq, Prod.mk.injEq] at hok
          obtain ⟨hc, -⟩ := hok
          subst hc
          by_cases hd : t = 0 <;> simp [hd, withTimeout, background]
  · simp [ht] at hok

/-- C7: on a successful annotation, the bag's values for any key are the
header-derived values first, followed by each registered annotator's
values in registration order; and the outgoing and incoming attachment
directions expose the same merged bag. -/
theorem claim_C7 (mux : ServeMux) (req : Request) (dt : Int)
    (hwf : ∀ a ∈ mux.metadataAnnotators, ∀ c r, mdWF (a c r)) :
    (∀ c md ps, annotateContext mux req background dt = .ok (c, some md) →
        allPairs mux req = .ok ps →
        ∀ k, mdLookup md k =
          mdLookup (mdPairs ps) k ++
            (mux.metadataAnnotators.map (fun a => mdLookup (a c req) k)).flatten)
  ∧ (∀ cO cI, AnnotateContext mux req background dt = .ok cO →
        AnnotateIncomingContext mux req background dt = .ok cI →
        cO.outgoingMD = cI.incomingMD) := by
  constructor
  · intro c md ps hok hap k
    unfold annotateContext at hok
    rcases ht : req.traceErr with _ | e0
    · rcases hrt : resolvedTimeout req dt with er | t
      · simp [ht, hrt] at hok
      · simp only [ht, hrt, hap] at hok
        by_cases hps : ps = []
        · rw [if_pos hps] at hok
          simp at hok
        · rw [if_neg hps] at hok
          simp only [Except.ok.injEq, Prod.mk.injEq, Option.some.injEq] at hok
          obtain ⟨hc, hm⟩ := hok
          subst hc
          subst hm
          rw [mdLookup_foldl_annotators mux.metadataAnnotators _ req (mdPairs ps) k
            (fun a ha => hwf a ha _ req)]
    · simp [ht] at hok
  · intro cO cI hO hI
    unfold AnnotateContext at hO
    unfold AnnotateIncomingContext at hI
    rcases hac : annotateContext mux req background dt with er | ⟨c, m⟩
    · simp [hac] at hO
    · rcases m with _ | md
      · simp only [hac] at hO hI
        obtain ⟨h1, h2⟩ := annotateContext_fields mux req dt c none hac
        simp only [Except.ok.injEq] at hO hI
        subst hO
        subst hI
        rw [h1, h2]
      · simp only [hac] at hO hI
        simp only [Except.ok.injEq] at hO hI
        subst hO
        subst hI
        rfl

/-- C8: headers whose names differ only by case collapse, at header-add
time, into a single canonical key whose value list preserves insertion
order, and annotating the claim's two-header example yields the single
metadata key foo-baz with the ordered value list. -/
theorem claim_C8 :
    (∀ (k1 k2 v1 v2 : String), canonicalMIMEHeaderKey k1 = canonicalMIMEHeaderKey k2 →
      headerAdd (headerAdd [] k1 v1) k2 v2 = [(canonicalMIMEHeaderKey k1, [v1, v2])])
  ∧ (∀ v2 v3 : String, ∃ c,
      AnnotateContext newServeMux
        { header := headerAdd (headerAdd [] "Grpc-Metadata-Foo-BAZ" v2) "Grpc-Metadata-foo-bAz" v3 }
        background 0 = .ok c ∧
      c.outgoingMD = some [("foo-baz", [v2, v3])] ∧
      mdLookup [("foo-baz", [v2, v3])] "foo-baz" = [v2, v3]) := by
  constructor
  · intro k1 k2 v1 v2 h
    simp [headerAdd, h]
  · intro v2 v3
    have hc1 : canonicalMIMEHeaderKey "Grpc-Metadata-Foo-BAZ" = "Grpc-Metadata-Foo-Baz" := by
      decide
    have hc2 : canonicalMIMEHeaderKey "Grpc-Metadata-foo-bAz" = "Grpc-Metadata-Foo-Baz" := by
      decide
    have hH : headerAdd (headerAdd [] "Grpc-Metadata-Foo-BAZ" v2) "Grpc-Metadata-foo-bAz" v3
        = [("Grpc-Metadata-Foo-Baz", [v2, v3])] := by
      simp [headerAdd, hc1, hc2]
    have hget : headerGet [("Grpc-Metadata-Foo-Baz", [v2, v3])] "Grpc-Timeout" = "" := by
      rw [headerGet_cons, canon_GT, if_neg (by decide), headerGet_nil]
    have hXFH : headerGet [("Grpc-Metadata-Foo-Baz", [v2, v3])] "X-Forwarded-Host" = "" := by
      rw [headerGet_cons, canon_XFH, if_neg (by decide), headerGet_nil]
    have hc3 : canonicalMIMEHeaderKey "Grpc-Metadata-Foo-Baz" = "Grpc-Metadata-Foo-Baz" := by
      decide
    have hm : defaultHeaderMatcher "Grpc-Metadata-Foo-Baz" = some "foo-baz" := by decide
    have hsuf : ("-Bin".data.isSuffixOf "Grpc-Metadata-Foo-Baz".data) = false := by decide
    have hauth : ("Grpc-Metadata-Foo-Baz" : String) ≠ "Authorization" := by decide
    have hpv : ∀ v, processVal newServeMux "Grpc-Metadata-Foo-Baz" v = .ok [("foo-baz", v)] := by
      intro v
      unfold processVal
      rw [hc3]
      simp [newServeMux, hm, hauth, hsuf]
    have hph : processHeaders newServeMux [("Grpc-Metadata-Foo-Baz", [v2, v3])]
        = .ok [("foo-baz", v2), ("foo-baz", v3)] := by
      simp [processHeaders, processVals, hpv]
    have hap : allPairs newServeMux { header := [("Grpc-Metadata-Foo-Baz", [v2, v3])] }
        = .ok [("foo-baz", v2), ("foo-baz", v3)] := by
      unfold allPairs
      simp [hph, hXFH]
    have hl : lowerString "foo-baz" = "foo-baz" := by decide
    have hmd : mdPairs [("foo-baz", v2), ("foo-baz", v3)] = [("foo-baz", [v2, v3])] := by
      simp [mdPairs, mdAdd, hl]
    have hann : annotateContext newServeMux { header := [("Grpc-Metadata-Foo-Baz", [v2, v3])] }
        background 0 = .ok ({ spanPath := some "" }, some [("foo-baz", [v2, v3])]) := by
      unfold annotateContext
      simp only [resolvedTimeout, hget, if_pos rfl, hap]
      simp [newServeMux, hmd, background]
    refine ⟨{ spanPath := some "", outgoingMD := some [("foo-baz", [v2, v3])] }, ?_, rfl, ?_⟩
    · unfold AnnotateContext
      rw [hH, hann]
    · rw [mdLookup_cons, if_pos rfl]

/-- A two-annotator mux configuration used to witness C7. -/
def muxW : ServeMux :=
  { incomingHeaderMatcher := defaultHeaderMatcher,
    metadataAnnotators := [fun _ _ => [("foo", ["bar"])], fun _ _ => [("baz", ["qux"])]] }

/-- The request used to witness C7. -/
def reqW : Request := { header := [], host := "example.com" }

/-- C7 witness: with two registered annotators, the merged bag's values
for a key are the header-derived values followed by the annotator values
in registration order. -/
theorem claim_C7_witness :
    mdLookup [("x-forwarded-host", ["example.com"]), ("foo", ["bar"]), ("baz", ["qux"])] "baz"
      = mdLookup (mdPairs [("x-forwarded-host", "example.com")]) "baz" ++
        (muxW.metadataAnnotators.map
          (fun a => mdLookup (a { spanPath := some "" } reqW) "baz")).flatten :=
  (claim_C7 muxW reqW 0 (by
    intro a ha c r
    simp only [muxW, List.mem_cons, List.not_mem_nil, or_false] at ha
    rcases ha with rfl | rfl <;> simp [mdWF])).1
    { spanPath := some "" }
    [("x-forwarded-host", ["example.com"]), ("foo", ["bar"]), ("baz", ["qux"])]
    [("x-forwarded-host", "example.com")] rfl rfl "baz"

/-- C8 witness: the claim's example header names and values, evaluated
concretely. -/
theorem claim_C8_witness :
    headerAdd (headerAdd [] "Grpc-Metadata-Foo-BAZ" "Value2") "Grpc-Metadata-foo-bAz" "Value3"
      = [(canonicalMIMEHeaderKey "Grpc-Metadata-Foo-BAZ", ["Value2", "Value3"])]
    ∧ ∃ c, AnnotateContext newServeMux
        { header := headerAdd (headerAdd [] "Grpc-Metadata-Foo-BAZ" "Value2")
            "Grpc-Metadata-foo-bAz" "Value3" } background 0 = .ok c ∧
      c.outgoingMD = some [("foo-baz", ["Value2", "Value3"])] ∧
      mdLookup [("foo-baz", ["Value2", "Value3"])] "foo-baz" = ["Value2", "Value3"] :=
  ⟨claim_C8.1 "Grpc-Metadata-Foo-BAZ" "Grpc-Metadata-foo-bAz" "Value2" "Value3" (by decide),
   claim_C8.2 "Value2" "Value3"⟩

/-! ### Claim C1: Authorization passthrough (corrected) -/

lemma mdPairs_foldl_lookup_ne (qs : List (String × String)) (base : MD) (k : String)
    (h : ∀ p ∈ qs, lowerString p.1 ≠ k) :
    mdLookup (qs.foldl (fun m p => mdAdd m (lowerString p.1) p.2) base) k
      = mdLookup base k := by
  revert h
  induction qs generalizing base with
  | nil =>
    intro h
    rfl
  | cons p rest ih =>
    intro h
    simp only [List.foldl_cons]
    rw [ih _ (fun q hq => h q (by simp [hq])), mdLookup_mdAdd,
        if_neg (fun hh => h p (by simp) hh.symm)]

lemma mdLookup_mdPairs_append (ps qs : List (String × String)) (k : String)
    (h : ∀ p ∈ qs, lowerString p.1 ≠ k) :
    mdLookup (mdPairs (ps ++ qs)) k = mdLookup (mdPairs ps) k := by
  unfold mdPairs
  rw [List.foldl_append]
  exact mdPairs_foldl_lookup_ne qs _ k h

/-- C1 counterexample: a request carrying an Authorization header and a
malformed Grpc-Timeout header makes both annotation operations fail, so
the claim's unconditional success assertion does not hold for every
request carrying an Authorization header. -/
theorem claim_C1_cex :
    AnnotateContext newServeMux
      { header := [("Authorization", ["Token X"]), ("Grpc-Timeout", ["bad"])],
        host := "example.com" } background 0 = .error "invalid grpc-timeout: bad"
    ∧ AnnotateIncomingContext newServeMux
      { header := [("Authorization", ["Token X"]), ("Grpc-Timeout", ["bad"])],
        host := "example.com" } background 0 = .error "invalid grpc-timeout: bad" :=
  ⟨rfl, rfl⟩

lemma extra_keys_ok (k2 : String)
    (hk : k2 = "x-forwarded-host" ∨ k2 = "x-forwarded-for") :
    lowerString k2 ≠ "authorization" ∧ lowerString k2 ≠ "grpcgateway-authorization" := by
  rcases hk with rfl | rfl <;> exact ⟨by decide, by decide⟩

/-- C1 amended: for every request whose headers consist exactly of an
Authorization header with single value V (any host, remote address and
path, successful trace extraction), both annotation operations succeed
and the bag maps authorization and grpcgateway-authorization to [V]. -/
theorem claim_C1_amended (V host addr path : String) :
    ∃ cO cI md,
      AnnotateContext newServeMux
        { header := [("Authorization", [V])], host := host, remoteAddr := addr, path := path }
        background 0 = .ok cO
    ∧ AnnotateIncomingContext newServeMux
        { header := [("Authorization", [V])], host := host, remoteAddr := addr, path := path }
        background 0 = .ok cI
    ∧ cO.outgoingMD = some md ∧ cI.incomingMD = some md
    ∧ mdLookup md "authorization" = [V]
    ∧ mdLookup md "grpcgateway-authorization" = [V] := by
  have hgetGT : headerGet [("Authorization", [V])] "Grpc-Timeout" = "" := by
    rw [headerGet_cons, canon_GT, if_neg (by decide), headerGet_nil]
  have hgetXFH : headerGet [("Authorization", [V])] "X-Forwarded-Host" = "" := by
    rw [headerGet_cons, canon_XFH, if_neg (by decide), headerGet_nil]
  have hgetXFF : headerGet [("Authorization", [V])] "X-Forwarded-For" = "" := by
    rw [headerGet_cons, canon_XFF, if_neg (by decide), headerGet_nil]
  have hpv : processVal newServeMux "Authorization" V
      = .ok [("authorization", V), ("grpcgateway-authorization", V)] := by
    unfold processVal
    rw [canon_Authorization]
    have hsuf : ("-Bin".data.isSuffixOf "Authorization".data) = false := by decide
    simp [newServeMux, match_Authorization, hsuf]
  have hph : processHeaders newServeMux [("Authorization", [V])]
      = .ok [("authorization", V), ("grpcgateway-authorization", V)] := by
    simp [processHeaders, processVals, hpv]
  obtain ⟨extra, hap, hex⟩ : ∃ extra,
      allPairs newServeMux
        { header := [("Authorization", [V])], host := host, remoteAddr := addr, path := path }
        = .ok ([("authorization", V), ("grpcgateway-authorization", V)] ++ extra)
      ∧ ∀ p ∈ extra,
          lowerString p.1 ≠ "authorization" ∧ lowerString p.1 ≠ "grpcgateway-authorization" := by
    unfold allPairs
    by_cases hh : host = ""
    · by_cases ha : addr = ""
      · exact ⟨[], by simp [hph, hgetXFH, hh, ha], by simp⟩
      · rcases hsp : splitHostPort addr with _ | ⟨ip, prt⟩
        · exact ⟨[], by simp [hph, hgetXFH, hgetXFF, hh, ha, hsp], by simp⟩
        · refine ⟨[("x-forwarded-for", ip)],
            by simp [hph, hgetXFH, hgetXFF, hh, ha, hsp, lower_XFF], ?_⟩
          intro p hp
          simp only [List.mem_cons, List.not_mem_nil, or_false] at hp
          subst hp
          exact extra_keys_ok _ (Or.inr rfl)
    · by_cases ha : addr = ""
      · refine ⟨[("x-forwarded-host", host)], by simp [hph, hgetXFH, hh, ha, lower_XFH], ?_⟩
        intro p hp
        simp only [List.mem_cons, List.not_mem_nil, or_false] at hp
        subst hp
        exact extra_keys_ok _ (Or.inl rfl)
      · rcases hsp : splitHostPort addr with _ | ⟨ip, prt⟩
        · refine ⟨[("x-forwarded-host", host)],
            by simp [hph, hgetXFH, hgetXFF, hh, ha, hsp, lower_XFH], ?_⟩
          intro p hp
          simp only [List.mem_cons, List.not_mem_nil, or_false] at hp
          subst hp
          exact extra_keys_ok _ (Or.inl rfl)
        · refine ⟨[("x-forwarded-host", host), ("x-forwarded-for", ip)],
            by simp [hph, hgetXFH, hgetXFF, hh, ha, hsp, lower_XFH, lower_XFF], ?_⟩
          intro p hp
          simp only [List.mem_cons, List.not_mem_nil, or_false] at hp
          rcases hp with rfl | rfl
          · exact extra_keys_ok _ (Or.inl rfl)
          · exact extra_keys_ok _ (Or.inr rfl)
  have hbase : mdPairs [("authorization", V), ("grpcgateway-authorization", V)]
      = [("authorization", [V]), ("grpcgateway-authorization", [V])] := by
    have h1 : lowerString "authorization" = "authorization" := by decide
    have h2 : lowerString "grpcgateway-authorization" = "grpcgateway-authorization" := by decide
    simp [mdPairs, mdAdd, h1, h2]
  have hA : mdLookup (mdPairs ([("authorization", V), ("grpcgateway-authorization", V)] ++ extra))
      "authorization" = [V] := by
    rw [mdLookup_mdPairs_append _ _ _ (fun p hp => (hex p hp).1), hbase, mdLookup_cons,
        if_pos rfl]
  have hG : mdLookup (mdPairs ([("authorization", V), ("grpcgateway-authorization", V)] ++ extra))
      "grpcgateway-authorization" = [V] := by
    rw [mdLookup_mdPairs_append _ _ _ (fun p hp => (hex p hp).2), hbase, mdLookup_cons,
        if_neg (by decide), mdLookup_cons, if_pos rfl]
  have hann : annotateContext newServeMux
      { header := [("Authorization", [V])], host := host, remoteAddr := addr, path := path }
      background 0
      = .ok ({ spanPath := some path },
          some (mdPairs ([("authorization", V), ("grpcgateway-authorization", V)] ++ extra))) := by
    unfold annotateContext
    simp only [resolvedTimeout, hgetGT, if_pos rfl, hap]
    simp [newServeMux, background]
  refine ⟨{ spanPath := some path,
            outgoingMD := some (mdPairs ([("authorization", V), ("grpcgateway-authorization", V)] ++ extra)) },
          { spanPath := some path,
            incomingMD := some (mdPairs ([("authorization", V), ("grpcgateway-authorization", V)] ++ extra)) },
          mdPairs ([("authorization", V), ("grpcgateway-authorization", V)] ++ extra),
          ?_, ?_, rfl, rfl, hA, hG⟩
  · unfold AnnotateContext
    rw [hann]
  · unfold AnnotateIncomingContext
    rw [hann]

/-! ### Claim C3: forwarded chain (corrected) -/

/-- C3 counterexample: with an unsplittable remote address and a
malformed Grpc-Timeout header, annotation fails, so the claim's assertion
that annotation still succeeds whenever RemoteAddr does not split does
not hold for every request. -/
theorem claim_C3_cex :
    splitHostPort "unsplittable" = none
    ∧ AnnotateContext newServeMux
        { header := [("Grpc-Timeout", ["zz"])], remoteAddr := "unsplittable" } background 0
      = .error "invalid grpc-timeout: zz" :=
  ⟨rfl, rfl⟩

/-- C3 amended: for requests with no other recognized headers, a
splittable RemoteAddr contributes the bare client IP when no
X-Forwarded-For header exists and the existing chain with the client IP
appended on the right when one does; an unsplittable RemoteAddr omits the
entry while annotation (absent other failures) still succeeds. -/
theorem claim_C3_amended :
    (∀ host addr path ip prt : String, splitHostPort addr = some (ip, prt) →
      ∃ c md, AnnotateContext newServeMux
          { header := [], host := host, remoteAddr := addr, path := path } background 0 = .ok c
        ∧ c.outgoingMD = some md ∧ mdLookup md "x-forwarded-for" = [ip])
  ∧ (∀ F host addr path ip prt : String, F ≠ "" → splitHostPort addr = some (ip, prt) →
      ∃ c md, AnnotateContext newServeMux
          { header := [("X-Forwarded-For", [F])], host := host, remoteAddr := addr, path := path }
          background 0 = .ok c
        ∧ c.outgoingMD = some md ∧ mdLookup md "x-forwarded-for" = [F ++ ", " ++ ip])
  ∧ (∀ host addr path : String, splitHostPort addr = none →
      ∃ c, AnnotateContext newServeMux
          { header := [], host := host, remoteAddr := addr, path := path } background 0 = .ok c
        ∧ ∀ md, c.outgoingMD = some md → mdLookup md "x-forwarded-for" = []) := by
  have hlh : lowerString "x-forwarded-host" = "x-forwarded-host" := by decide
  have hlf : lowerString "x-forwarded-for" = "x-forwarded-for" := by decide
  have hne1 : ("x-forwarded-host" : String) ≠ "x-forwarded-for" := by decide
  refine ⟨?_, ?_, ?_⟩
  · intro host addr path ip prt hsp
    have haddr : addr ≠ "" := by
      intro h
      rw [h, show splitHostPort "" = none from rfl] at hsp
      exact Option.noConfusion hsp
    by_cases hh : host = ""
    · have hap : allPairs newServeMux
          { header := [], host := host, remoteAddr := addr, path := path }
          = .ok [("x-forwarded-for", ip)] := by
        unfold allPairs
        simp [processHeaders, headerGet_nil, hh, haddr, hsp, lower_XFF]
      have hann : annotateContext newServeMux
          { header := [], host := host, remoteAddr := addr, path := path } background 0
          = .ok ({ spanPath := some path }, some [("x-forwarded-for", [ip])]) := by
        unfold annotateContext
        simp only [resolvedTimeout, headerGet_nil, if_pos rfl, hap]
        simp [newServeMux, background, mdPairs, mdAdd, hlf]
      exact ⟨{ spanPath := some path, outgoingMD := some [("x-forwarded-for", [ip])] },
        [("x-forwarded-for", [ip])],
        by unfold AnnotateContext; rw [hann], rfl,
        by rw [mdLookup_cons, if_pos rfl]⟩
    · have hap : allPairs newServeMux
          { header := [], host := host, remoteAddr := addr, path := path }
          = .ok [("x-forwarded-host", host), ("x-forwarded-for", ip)] := by
        unfold allPairs
        simp [processHeaders, headerGet_nil, hh, haddr, hsp, lower_XFH, lower_XFF]
      have hann : annotateContext newServeMux
          { header := [], host := host, remoteAddr := addr, path := path } background 0
          = .ok ({ spanPath := some path },
              some [("x-forwarded-host", [host]), ("x-forwarded-for", [ip])]) := by
        unfold annotateContext
        simp only [resolvedTimeout, headerGet_nil, if_pos rfl, hap]
        simp [newServeMux, background, mdPairs, mdAdd, hlh, hlf, hne1]
      exact ⟨{ spanPath := some path,
               outgoingMD := some [("x-forwarded-host", [host]), ("x-forwarded-for", [ip])] },
        [("x-forwarded-host", [host]), ("x-forwarded-for", [ip])],
        by unfold AnnotateContext; rw [hann], rfl,
        by rw [mdLookup_cons, if_neg hne1, mdLookup_cons, if_pos rfl]⟩
  · intro F host addr path ip prt hF hsp
    have haddr : addr ≠ "" := by
      intro h
      rw [h, show splitHostPort "" = none from rfl] at hsp
      exact Option.noConfusion hsp
    have hgetGT : headerGet [("X-Forwarded-For", [F])] "Grpc-Timeout" = "" := by
      rw [headerGet_cons, canon_GT, if_neg (by decide), headerGet_nil]
    have hgetXFH : headerGet [("X-Forwarded-For", [F])] "X-Forwarded-Host" = "" := by
      rw [headerGet_cons, canon_XFH, if_neg (by decide), headerGet_nil]
    have hgetXFF : headerGet [("X-Forwarded-For", [F])] "X-Forwarded-For" = F := by
      rw [headerGet_cons, canon_XFF, if_pos rfl]
      rfl
    have hmatch : defaultHeaderMatcher "X-Forwarded-For" = none := by decide
    have hpv : processVal newServeMux "X-Forwarded-For" F = .ok [] := by
      unfold processVal
      rw [canon_XFF]
      simp [newServeMux, hmatch]
    have hph : processHeaders newServeMux [("X-Forwarded-For", [F])] = .ok [] := by
      simp [processHeaders, processVals, hpv]
    by_cases hh : host = ""
    · have hap : allPairs newServeMux
          { header := [("X-Forwarded-For", [F])], host := host, remoteAddr := addr, path := path }
          = .ok [("x-forwarded-for", F ++ ", " ++ ip)] := by
        unfold allPairs
        simp [hph, hgetXFH, hgetXFF, hh, haddr, hsp, hF, lower_XFF]
      have hann : annotateContext newServeMux
          { header := [("X-Forwarded-For", [F])], host := host, remoteAddr := addr, path := path }
          background 0
          = .ok ({ spanPath := some path }, some [("x-forwarded-for", [F ++ ", " ++ ip])]) := by
        unfold annotateContext
        simp only [resolvedTimeout, hgetGT, if_pos rfl, hap]
        simp [newServeMux, background, mdPairs, mdAdd, hlf]
      exact ⟨{ spanPath := some path, outgoingMD := some [("x-forwarded-for", [F ++ ", " ++ ip])] },
        [("x-forwarded-for", [F ++ ", " ++ ip])],
        by unfold AnnotateContext; rw [hann], rfl,
        by rw [mdLookup_cons, if_pos rfl]⟩
    · have hap : allPairs newServeMux
          { header := [("X-Forwarded-For", [F])], host := host, remoteAddr := addr, path := path }
          = .ok [("x-forwarded-host", host), ("x-forwarded-for", F ++ ", " ++ ip)] := by
        unfold allPairs
        simp [hph, hgetXFH, hgetXFF, hh, haddr, hsp, hF, lower_XFH, lower_XFF]
      have hann : annotateContext newServeMux
          { header := [("X-Forwarded-For", [F])], host := host, remoteAddr := addr, path := path }
          background 0
          = .ok ({ spanPath := some path },
              some [("x-forwarded-host", [host]), ("x-forwarded-for", [F ++ ", " ++ ip])]) := by
        unfold annotateContext
        simp only [resolvedTimeout, hgetGT, if_pos rfl, hap]
        simp [newServeMux, background, mdPairs, mdAdd, hlh, hlf, hne1]
      exact ⟨{ spanPath := some path,
               outgoingMD := some [("x-forwarded-host", [host]),
                                   ("x-forwarded-for", [F ++ ", " ++ ip])] },
        [("x-forwarded-host", [host]), ("x-forwarded-for", [F ++ ", " ++ ip])],
        by unfold AnnotateContext; rw [hann], rfl,
        by rw [mdLookup_cons, if_neg hne1, mdLookup_cons, if_pos rfl]⟩
  · intro host addr path hsp
    by_cases hh : host = ""
    · have hap : allPairs newServeMux
          { header := [], host := host, remoteAddr := addr, path := path } = .ok [] := by
        unfold allPairs
        by_cases ha : addr = "" <;> simp [processHeaders, headerGet_nil, hh, ha, hsp]
      have hann : annotateContext newServeMux
          { header := [], host := host, remoteAddr := addr, path := path } background 0
          = .ok ({ spanPath := some path }, none) := by
        unfold annotateContext
        simp only [resolvedTimeout, headerGet_nil, if_pos rfl, hap]
        simp [background]
      refine ⟨{ spanPath := some path }, by unfold AnnotateContext; rw [hann], ?_⟩
      intro md hmd
      exact Option.noConfusion hmd
    · have hap : allPairs newServeMux
          { header := [], host := host, remoteAddr := addr, path := path }
          = .ok [("x-forwarded-host", host)] := by
        unfold allPairs
        by_cases ha : addr = "" <;> simp [processHeaders, headerGet_nil, hh, ha, hsp, lower_XFH]
      have hann : annotateContext newServeMux
          { header := [], host := host, remoteAddr := addr, path := path } background 0
          = .ok ({ spanPath := some path }, some [("x-forwarded-host", [host])]) := by
        unfold annotateContext
        simp only [resolvedTimeout, headerGet_nil, if_pos rfl, hap]
        simp [newServeMux, background, mdPairs, mdAdd, hlh]
      refine ⟨{ spanPath := some path, outgoingMD := some [("x-forwarded-host", [host])] },
        by unfold AnnotateContext; rw [hann], ?_⟩
      intro md hmd
      have : md = [("x-forwarded-host", [host])] := by
        injection hmd.symm
      subst this
      rw [mdLookup_cons, if_neg hne1, mdLookup_nil]

/-- C3 witness: the spec's example chain 192.0.2.100, 192.0.2.200, and an
unsplittable remote address leaving no forwarded-for entry. -/
theorem claim_C3_witness :
    (∃ c md, AnnotateContext newServeMux
        { header := [("X-Forwarded-For", ["192.0.2.100"])], host := "bar.foo.example.com",
          remoteAddr := "192.0.2.200:12345", path := "" } background 0 = .ok c
      ∧ c.outgoingMD = some md
      ∧ mdLookup md "x-forwarded-for" = ["192.0.2.100" ++ ", " ++ "192.0.2.200"])
    ∧ ∃ c, AnnotateContext newServeMux
        { header := [], host := "", remoteAddr := "unsplittable", path := "" } background 0 = .ok c
      ∧ ∀ md, c.outgoingMD = some md → mdLookup md "x-forwarded-for" = [] :=
  ⟨claim_C3_amended.2.1 "192.0.2.100" "bar.foo.example.com" "192.0.2.200:12345" ""
      "192.0.2.200" "12345" (by decide) (by decide),
   claim_C3_amended.2.2 "" "unsplittable" "" (by decide)⟩

/-! ### Claim C9: forwarded-only bag (corrected) -/

/-- Headers none of which is recognized by the annotation pipeline: not
the Authorization passthrough, not accepted by the matcher, and none of
the specially consumed names. -/
def unrecognizedHeaders (mux : ServeMux) (h : Header) : Prop :=
  ∀ e ∈ h, canonicalMIMEHeaderKey e.1 ≠ "Authorization" ∧
    mux.incomingHeaderMatcher (canonicalMIMEHeaderKey e.1) = none ∧
    e.1 ≠ "Grpc-Timeout" ∧ e.1 ≠ "X-Forwarded-Host" ∧ e.1 ≠ "X-Forwarded-For"

/-- The forwarded-only bag: the x-forwarded-host entry when a host
resolves, plus the x-forwarded-for entry when the remote address splits;
none when both are absent. -/
def forwardOnlyMD (req : Request) : Option MD :=
  let hp : MD := if req.host ≠ "" then [("x-forwarded-host", [req.host])] else []
  let fp : MD :=
    if req.remoteAddr ≠ "" then
      match splitHostPort req.remoteAddr with
      | some (ip, _) => [("x-forwarded-for", [ip])]
      | none => []
    else []
  if hp ++ fp = [] then none else some (hp ++ fp)

lemma headerGet_all_ne (h : Header) (key : String)
    (hne : ∀ e ∈ h, e.1 ≠ canonicalMIMEHeaderKey key) : headerGet h key = "" := by
  induction h with
  | nil => rfl
  | cons e rest ih =>
    obtain ⟨k0, vs⟩ := e
    rw [headerGet_cons, if_neg (hne (k0, vs) (by simp))]
    exact ih (fun f hf => hne f (by simp [hf]))

lemma processVals_ok_nil (mux : ServeMux) (k : String) (vs : List String)
    (hpv : ∀ v, processVal mux k v = .ok []) : processVals mux k vs = .ok [] := by
  induction vs with
  | nil => rfl
  | cons v vt ih => simp [processVals, hpv, ih]

lemma processHeaders_unmatched (mux : ServeMux) (h : Header)
    (hu : ∀ e ∈ h, canonicalMIMEHeaderKey e.1 ≠ "Authorization" ∧
      mux.incomingHeaderMatcher (canonicalMIMEHeaderKey e.1) = none) :
    processHeaders mux h = .ok [] := by
  induction h with
  | nil => rfl
  | cons e rest ih =>
    obtain ⟨k, vs⟩ := e
    have he1 : canonicalMIMEHeaderKey k ≠ "Authorization" := (hu (k, vs) (by simp)).1
    have he2 : mux.incomingHeaderMatcher (canonicalMIMEHeaderKey k) = none :=
      (hu (k, vs) (by simp)).2
    have hpv : ∀ v, processVal mux k v = .ok [] := by
      intro v
      unfold processVal
      simp [he1, he2]
    have hvs : processVals mux k vs = .ok [] := processVals_ok_nil mux k vs hpv
    simp [processHeaders, hvs, ih (fun f hf => hu f (by simp [hf]))]

/-- C9 counterexample: a request with no recognized headers but a
splittable remote address produces a bag holding an x-forwarded-for entry
besides the forwarded-host entry, so the bag does not consist of the
forwarded-host entry and nothing else. -/
theorem claim_C9_cex :
    AnnotateContext newServeMux
      { header := [], host := "example.com", remoteAddr := "192.0.2.200:12345" } background 0
      = .ok { spanPath := some "",
              outgoingMD := some [("x-forwarded-host", ["example.com"]),
                                  ("x-forwarded-for", ["192.0.2.200"])] }
    ∧ ("x-forwarded-for" : String) ≠ "x-forwarded-host" :=
  ⟨rfl, by decide⟩

/-- C9 amended: for a request with no recognized headers (and no
registered annotators, successful trace extraction), the bag is exactly
the forwarded-host entry when a host is resolvable plus the
forwarded-for entry when the remote address splits, and nothing else. -/
theorem claim_C9_amended (mux : ServeMux) (req : Request) (dt : Int)
    (hann0 : mux.metadataAnnotators = [])
    (htrace : req.traceErr = none)
    (hH : unrecognizedHeaders mux req.header) :
    ∃ c, AnnotateContext mux req background dt = .ok c ∧ c.outgoingMD = forwardOnlyMD req := by
  have hlh : lowerString "x-forwarded-host" = "x-forwarded-host" := by decide
  have hlf : lowerString "x-forwarded-for" = "x-forwarded-for" := by decide
  have hne1 : ("x-forwarded-host" : String) ≠ "x-forwarded-for" := by decide
  have hgetGT : headerGet req.header "Grpc-Timeout" = "" := by
    apply headerGet_all_ne
    intro e he
    rw [canon_GT]
    exact (hH e he).2.2.1
  have hgetXFH : headerGet req.header "X-Forwarded-Host" = "" := by
    apply headerGet_all_ne
    intro e he
    rw [canon_XFH]
    exact (hH e he).2.2.2.1
  have hgetXFF : headerGet req.header "X-Forwarded-For" = "" := by
    apply headerGet_all_ne
    intro e he
    rw [canon_XFF]
    exact (hH e he).2.2.2.2
  have hph : processHeaders mux req.header = .ok [] :=
    processHeaders_unmatched mux req.header (fun e he => ⟨(hH e he).1, (hH e he).2.1⟩)
  by_cases hh : req.host = ""
  · by_cases ha : req.remoteAddr = ""
    · have hap : allPairs mux req = .ok [] := by
        unfold allPairs
        simp [hph, hgetXFH, hh, ha]
      have hann : annotateContext mux req background dt
          = .ok ((if dt ≠ 0 then withTimeout { spanPath := some req.path } dt
                  else { spanPath := some req.path }), none) := by
        unfold annotateContext
        simp only [htrace, resolvedTimeout, hgetGT, if_pos rfl, hap]
        simp [background]
      refine ⟨_, by unfold AnnotateContext; rw [hann], ?_⟩
      have hfwd : forwardOnlyMD req = none := by
        simp [forwardOnlyMD, hh, ha]
      rw [hfwd]
      by_cases hdt : dt = 0 <;> simp [hdt, withTimeout]
    · rcases hsp : splitHostPort req.remoteAddr with _ | ⟨ip, prt⟩
      · have hap : allPairs mux req = .ok [] := by
          unfold allPairs
          simp [hph, hgetXFH, hh, ha, hsp]
        have hann : annotateContext mux req background dt
            = .ok ((if dt ≠ 0 then withTimeout { spanPath := some req.path } dt
                    else { spanPath := some req.path }), none) := by
          unfold annotateContext
          simp only [htrace, resolvedTimeout, hgetGT, if_pos rfl, hap]
          simp [background]
        refine ⟨_, by unfold AnnotateContext; rw [hann], ?_⟩
        have hfwd : forwardOnlyMD req = none := by
          simp [forwardOnlyMD, hh, ha, hsp]
        rw [hfwd]
        by_cases hdt : dt = 0 <;> simp [hdt, withTimeout]
      · have hap : allPairs mux req = .ok [("x-forwarded-for", ip)] := by
          unfold allPairs
          simp [hph, hgetXFH, hgetXFF, hh, ha, hsp, lower_XFF]
        have hann : annotateContext mux req background dt
            = .ok ((if dt ≠ 0 then withTimeout { spanPath := some req.path } dt
                    else { spanPath := some req.path }), some [("x-forwarded-for", [ip])]) := by
          unfold annotateContext
          simp only [htrace, resolvedTimeout, hgetGT, if_pos rfl, hap]
          simp [hann0, background, mdPairs, mdAdd, hlf]
        have hfwd : forwardOnlyMD req = some [("x-forwarded-for", [ip])] := by
          simp [forwardOnlyMD, hh, ha, hsp]
        refine ⟨_, by unfold AnnotateContext; rw [hann], ?_⟩
        rw [hfwd]
  · by_cases ha : req.remoteAddr = ""
    · have hap : allPairs mux req = .ok [("x-forwarded-host", req.host)] := by
        unfold allPairs
        simp [hph, hgetXFH, hh, ha, lower_XFH]
      have hann : annotateContext mux req background dt
          = .ok ((if dt ≠ 0 then withTimeout { spanPath := some req.path } dt
                  else { spanPath := some req.path }), some [("x-forwarded-host", [req.host])]) := by
        unfold annotateContext
        simp only [htrace, resolvedTimeout, hgetGT, if_pos rfl, hap]
        simp [hann0, background, mdPairs, mdAdd, hlh]
      have hfwd : forwardOnlyMD req = some [("x-forwarded-host", [req.host])] := by
        simp [forwardOnlyMD, hh, ha]
      refine ⟨_, by unfold AnnotateContext; rw [hann], ?_⟩
      rw [hfwd]
    · rcases hsp : splitHostPort req.remoteAddr with _ | ⟨ip, prt⟩
      · have hap : allPairs mux req = .ok [("x-forwarded-host", req.host)] := by
          unfold allPairs
          simp [hph, hgetXFH, hh, ha, hsp, lower_XFH]
        have hann : annotateContext mux req background dt
            = .ok ((if dt ≠ 0 then withTimeout { spanPath := some req.path } dt
                    else { spanPath := some req.path }),
                some [("x-forwarded-host", [req.host])]) := by
          unfold annotateContext
          simp only [htrace, resolvedTimeout, hgetGT, if_pos rfl, hap]
          simp [hann0, background, mdPairs, mdAdd, hlh]
        have hfwd : forwardOnlyMD req = some [("x-forwarded-host", [req.host])] := by
          simp [forwardOnlyMD, hh, ha, hsp]
        refine ⟨_, by unfold AnnotateContext; rw [hann], ?_⟩
        rw [hfwd]
      · have hap : allPairs mux req
            = .ok [("x-forwarded-host", req.host), ("x-forwarded-for", ip)] := by
          unfold allPairs
          simp [hph, hgetXFH, hgetXFF, hh, ha, hsp, lower_XFH, lower_XFF]
        have hann : annotateContext mux req background dt
            = .ok ((if dt ≠ 0 then withTimeout { spanPath := some req.path } dt
                    else { spanPath := some req.path }),
                some [("x-forwarded-host", [req.host]), ("x-forwarded-for", [ip])]) := by
          unfold annotateContext
          simp only [htrace, resolvedTimeout, hgetGT, if_pos rfl, hap]
          simp [hann0, background, mdPairs, mdAdd, hlh, hlf, hne1]
        have hfwd : forwardOnlyMD req
            = some [("x-forwarded-host", [req.host]), ("x-forwarded-for", [ip])] := by
          simp [forwardOnlyMD, hh, ha, hsp]
        refine ⟨_, by unfold AnnotateContext; rw [hann], ?_⟩
        rw [hfwd]

/-- C9 witness: a request with one irrelevant header yields exactly the
forwarded-host bag. -/
theorem claim_C9_witness :
    ∃ c, AnnotateContext newServeMux
      { header := [("Some-Irrelevant-Header", ["some value"])], host := "www.example.com" }
      background 0 = .ok c
    ∧ c.outgoingMD = forwardOnlyMD
        { header := [("Some-Irrelevant-Header", ["some value"])], host := "www.example.com" } :=
  claim_C9_amended newServeMux
    { header := [("Some-Irrelevant-Header", ["some value"])], host := "www.example.com" } 0
    rfl rfl (by
      intro e he
      simp only [List.mem_cons, List.not_mem_nil, or_false] at he
      subst he
      exact ⟨by decide, by decide, by decide, by decide, by decide⟩)

/-! ### Remaining witnesses -/

/-- C2 witness: the 17H example evaluated through the theorem. -/
theorem claim_C2_witness :
    timeoutDecode "17H" = .ok (i64 (3600000000000 * 17)) :=
  ((claim_C2 "17H").2.1 17 (by decide) (by decide)).1 (by decide)

/-- C4 witness: a malformed Grpc-Timeout header is one of the
characterized failure causes and indeed aborts annotation. -/
theorem claim_C4_witness :
    ∃ e, AnnotateContext newServeMux { header := [("Grpc-Timeout", ["bad"])] } background 0
      = .error e :=
  (claim_C4 newServeMux { header := [("Grpc-Timeout", ["bad"])] } background 0).1.mpr
    (Or.inr (Or.inl ⟨by decide, "timeout unit is not recognized: bad", rfl⟩))

/-- C1 witness: the amended claim instantiated at the test's token. -/
theorem claim_C1_witness :
    ∃ cO cI md,
      AnnotateContext newServeMux
        { header := [("Authorization", ["Token 1234567890"])], host := "www.example.com",
          remoteAddr := "", path := "" } background 0 = .ok cO
    ∧ AnnotateIncomingContext newServeMux
        { header := [("Authorization", ["Token 1234567890"])], host := "www.example.com",
          remoteAddr := "", path := "" } background 0 = .ok cI
    ∧ cO.outgoingMD = some md ∧ cI.incomingMD = some md
    ∧ mdLookup md "authorization" = ["Token 1234567890"]
    ∧ mdLookup md "grpcgateway-authorization" = ["Token 1234567890"] :=
  claim_C1_amended "Token 1234567890" "www.example.com" "" ""

end Runtime
